import Mathlib

/-
  Verification of the realmpress worldbook assembly engine.

  Shallow embedding of the core Python modules
    kanka_to_md/markdown_utils.py
    kanka_to_md/entity_processing.py
    kanka_to_md/worldbook_generator.py
  into Lean 4.  Python dicts are modelled as association lists with
  replace-in-place insertion (matching dict insertion-order semantics),
  optional dict fields as Option, Python truthiness explicitly, and
  code points that can raise (direct indexing) in the Except monad.

  External collaborators (the BeautifulSoup HTML stage, the localization
  key-to-string lookup backed by translations.json, and the gallery-image
  filesystem lookup) are passed in as explicit function parameters, matching
  the specification, which excludes them from the core.
-/

set_option autoImplicit false

namespace Realmpress

/-! ## Python string primitives -/

/-- Python whitespace test (str.strip, the regex class backslash-s):
ASCII whitespace plus the Unicode space characters. -/
def isPySpace (c : Char) : Bool :=
  c.val = 9 || c.val = 10 || c.val = 11 || c.val = 12 || c.val = 13 || c.val = 32 ||
  c.val = 0x85 || c.val = 0xA0 || c.val = 0x1680 ||
  (0x2000 ≤ c.val && c.val ≤ 0x200A) ||
  c.val = 0x2028 || c.val = 0x2029 || c.val = 0x202F || c.val = 0x205F || c.val = 0x3000

/-- Python str.strip(): remove leading and trailing whitespace. -/
def pyStrip (l : List Char) : List Char :=
  ((l.dropWhile isPySpace).reverse.dropWhile isPySpace).reverse

/-- Truthiness of a Python string: non-empty. -/
def pyStripIsEmpty (s : String) : Bool :=
  s.data.all isPySpace

/-- Python str.lower() on the character repertoire modelled here:
ASCII letters plus the precomposed Latin letters used by the repository's
Hungarian data. -/
def pyLowerChar (c : Char) : Char :=
  match c with
  | 'Á' => 'á' | 'É' => 'é' | 'Í' => 'í' | 'Ó' => 'ó' | 'Ö' => 'ö'
  | 'Ő' => 'ő' | 'Ú' => 'ú' | 'Ü' => 'ü' | 'Ű' => 'ű'
  | 'À' => 'à' | 'È' => 'è' | 'Ì' => 'ì' | 'Ò' => 'ò' | 'Ù' => 'ù'
  | 'Â' => 'â' | 'Ê' => 'ê' | 'Î' => 'î' | 'Ô' => 'ô' | 'Û' => 'û'
  | 'Ä' => 'ä' | 'Ë' => 'ë' | 'Ï' => 'ï' | 'Ñ' => 'ñ' | 'Ç' => 'ç'
  | _ => c.toLower

/-- Unicode NFKD decomposition (unicodedata.normalize of the source), given
character-wise on the modelled repertoire: each precomposed Latin letter
decomposes into its base letter followed by a combining mark; every other
character is its own decomposition. -/
def nfkdChar (c : Char) : List Char :=
  match c with
  | 'á' => ['a', '́'] | 'é' => ['e', '́'] | 'í' => ['i', '́']
  | 'ó' => ['o', '́'] | 'ú' => ['u', '́']
  | 'à' => ['a', '̀'] | 'è' => ['e', '̀'] | 'ì' => ['i', '̀']
  | 'ò' => ['o', '̀'] | 'ù' => ['u', '̀']
  | 'â' => ['a', '̂'] | 'ê' => ['e', '̂'] | 'î' => ['i', '̂']
  | 'ô' => ['o', '̂'] | 'û' => ['u', '̂']
  | 'ä' => ['a', '̈'] | 'ë' => ['e', '̈'] | 'ï' => ['i', '̈']
  | 'ö' => ['o', '̈'] | 'ü' => ['u', '̈']
  | 'ő' => ['o', '̋'] | 'ű' => ['u', '̋']
  | 'ã' => ['a', '̃'] | 'ñ' => ['n', '̃'] | 'õ' => ['o', '̃']
  | 'ç' => ['c', '̧']
  | _ => [c]

/-- Combining-mark test (unicodedata.combining nonzero) for the block of
combining diacritical marks produced by the decompositions above. -/
def isCombiningMark (c : Char) : Bool :=
  0x300 ≤ c.val && c.val ≤ 0x36F

/-- Word-character test of the regex class backslash-w over the modelled
repertoire: ASCII alphanumerics, the underscore, and the non-decomposing
Latin letters of the repertoire. -/
def isWordChar (c : Char) : Bool :=
  c.isAlphanum || c = '_' || c = 'ß' || c = 'æ' || c = 'ø' || c = 'ð' || c = 'þ'

/-- Worker for collapseSpaces: the flag records whether the previous
character was whitespace, so that a maximal whitespace run emits exactly
one hyphen, at its first character. -/
def collapseAux : Bool → List Char → List Char
  | _, [] => []
  | inRun, c :: cs =>
    if isPySpace c then
      if inRun then collapseAux true cs else '-' :: collapseAux true cs
    else c :: collapseAux false cs

/-- Collapse every maximal run of whitespace to a single hyphen
(re.sub of backslash-s-plus with a hyphen). -/
def collapseSpaces (l : List Char) : List Char :=
  collapseAux false l

/-! ## markdown_utils.py -/

/-- Source create_anchor_label (markdown_utils.py): markdown-friendly,
ASCII-only anchor slug.  Lowercase, NFKD-normalize, drop combining marks,
collapse whitespace runs to one hyphen, drop remaining non-word
non-hyphen characters; falsy input (None or the empty string) maps
to the empty string. -/
def create_anchor_label (name : Option String) : String :=
  match name with
  | none => ""
  | some s =>
    if s.isEmpty then "" else
    let slug := (pyStrip s.data).map pyLowerChar
    let slug := (slug.map nfkdChar).flatten
    let slug := slug.filter (fun c => !isCombiningMark c)
    let slug := collapseSpaces slug
    let slug := slug.filter (fun c => isWordChar c || c = '-')
    String.mk slug

/-- Anchor of a known-present name (how the generator calls
create_anchor_label on a string already in hand). -/
def anchorOf (s : String) : String := create_anchor_label (some s)

/-- Source md_escape (markdown_utils.py): escape underscores; falsy input
maps to the empty string. -/
def md_escape (text : Option String) : String :=
  match text with
  | none => ""
  | some s =>
    if s.isEmpty then "" else
    String.mk (s.data.flatMap (fun c => if c = '_' then ['\\', '_'] else [c]))

/-- Value stored in the identity map: the name and type of one entity. -/
structure EntityInfo where
  name : String
  type : String
  deriving Repr, DecidableEq

/-- Decimal value of a digit run (int of the source). -/
def digitsToNat (d : List Char) : Nat :=
  d.foldl (fun n c => 10 * n + (c.toNat - 48)) 0

/-- Replacement text produced for one matched mention token, with groups
w (the word before the colon) and d (the digit run): a markdown link when
the id is in the identity map, the bold placeholder otherwise.  This is
the replacer closure of replace_mentions. -/
def mentionReplacement (entity_map : List (Nat × EntityInfo)) (d : List Char) : List Char :=
  let entity_id := digitsToNat d
  match entity_map.lookup entity_id with
  | some e => ("[" ++ e.name ++ "](#" ++ anchorOf e.name ++ ")").data
  | none => ("**Entity_" ++ toString entity_id ++ "**").data

/-- Attempt to match the regex bracket-word-colon-digits-bracket at the
head of cs, where cs is the text following an opening square bracket.
Returns the word group, the digit group and the rest of the text.
The regex engine's greedy matching coincides with maximal takeWhile runs
here because a colon is not a word character and a closing bracket is
not a digit. -/
def parseMentionTok (cs : List Char) : Option (List Char × List Char × List Char) :=
  if (cs.takeWhile isWordChar).isEmpty then none
  else
    match cs.dropWhile isWordChar with
    | ':' :: r2 =>
      if (r2.takeWhile Char.isDigit).isEmpty then none
      else
        match r2.dropWhile Char.isDigit with
        | ']' :: rest => some (cs.takeWhile isWordChar, r2.takeWhile Char.isDigit, rest)
        | _ => none
    | _ => none

/-- Scanner core of replace_mentions, fuel-indexed for structural
recursion (each scan step strictly shortens the text, so fuel equal to the
text length always suffices; the fuel-exhausted arm is unreachable then):
walk the text; at every opening square bracket try the token pattern; on
success emit the replacement and continue after the match, otherwise emit
the character and continue.  This is exactly the leftmost, non-overlapping
scan of re.sub. -/
def scanMentionsF (entity_map : List (Nat × EntityInfo)) : Nat → List Char → List Char
  | 0, l => l
  | _ + 1, [] => []
  | fuel + 1, c :: cs =>
    if c = '[' then
      match parseMentionTok cs with
      | some (_, d, rest) => mentionReplacement entity_map d ++ scanMentionsF entity_map fuel rest
      | none => c :: scanMentionsF entity_map fuel cs
    else c :: scanMentionsF entity_map fuel cs

/-- The mention scan at adequate fuel. -/
def scanMentions (entity_map : List (Nat × EntityInfo)) (l : List Char) : List Char :=
  scanMentionsF entity_map l.length l

/-- Source replace_mentions (markdown_utils.py): rewrite every mention token
of shape bracket-word-colon-digits-bracket through the identity map. -/
def replace_mentions (text : String) (entity_map : List (Nat × EntityInfo)) : String :=
  String.mk (scanMentions entity_map text.data)

/-! ## Data model: records and envelopes -/

/-- One element of an envelope's tags list: a dict carrying a name,
a bare string, or a value of any other shape (skipped by the renderer). -/
inductive TagVal where
  | obj (name : String)
  | str (s : String)
  | other
  deriving Repr, DecidableEq

/-- A post attached to an entity envelope. -/
structure Post where
  name : Option String := none
  entry : Option String := none
  visibility_id : Option Nat := none
  position : Option Nat := none
  created_at : Option String := none
  deriving Repr, DecidableEq

/-- A family or organization membership row. -/
structure MemberRow where
  character_id : Option Nat := none
  role : Option String := none
  deriving Repr, DecidableEq

/-- The nested race or family reference inside character_races and
character_families rows. -/
structure RefRow where
  name : Option String := none
  id : Option Nat := none
  deriving Repr, DecidableEq

/-- One row of character_races or character_families. -/
structure LinkRow where
  ref : Option RefRow := none
  deriving Repr, DecidableEq

/-- The entity envelope nested under every record: global id plus
shadowable display fields. -/
structure Envelope where
  id : Nat
  name : Option String := none
  type : Option String := none
  type_id : Option Nat := none
  is_private : Option Nat := none
  parent_id : Option Nat := none
  is_dead : Option Nat := none
  entry : Option String := none
  tags : List TagVal := []
  posts : List Post := []
  deriving Repr, DecidableEq

/-- An entity record: an attribute bag with optional top-level fields that
may shadow the envelope's, plus the optional envelope itself (a record value
of None or an absent key are both Option.none; Python booleans in numeric
fields are modelled as 0 and 1, matching the equality-with-1 checks of the
source). -/
structure Record where
  id : Option Nat := none
  name : Option String := none
  entry : Option String := none
  excerpt : Option String := none
  entity : Option Envelope := none
  location_id : Option Nat := none
  journal_id : Option Nat := none
  race_id : Option Nat := none
  quest_id : Option Nat := none
  note_id : Option Nat := none
  family_id : Option Nat := none
  organisation_id : Option Nat := none
  item_id : Option Nat := none
  calendar_id : Option Nat := none
  timeline_id : Option Nat := none
  map_id : Option Nat := none
  tag_id : Option Nat := none
  parent_id : Option Nat := none
  is_private : Option Nat := none
  is_dead : Option Nat := none
  age : Option String := none
  gender : Option String := none
  sex : Option String := none
  pivotMembers : List MemberRow := []
  members : List MemberRow := []
  character_races : List LinkRow := []
  characterRaces : List LinkRow := []
  character_families : List LinkRow := []
  characterFamilies : List LinkRow := []
  deriving Repr, DecidableEq

/-- Python-or of an optional string against a fallback: the string when it
is present and truthy (non-empty), the fallback otherwise. -/
def pyOr (a : Option String) (b : String) : String :=
  match a with
  | some s => if s.isEmpty then b else s
  | none => b

/-- Truthiness of an optional numeric field: present and nonzero. -/
def truthyNat (a : Option Nat) : Bool :=
  match a with
  | some n => n ≠ 0
  | none => false

/-- Truthiness of an optional string field: present and non-empty. -/
def truthyStr (a : Option String) : Bool :=
  match a with
  | some s => !s.isEmpty
  | none => false

/-! ## Python dict on Nat keys as an association list -/

/-- Python dict assignment d[k] = v: replace in place when the key exists
(keeping its position in insertion order), append otherwise. -/
def dinsert {κ α : Type} [DecidableEq κ] (k : κ) (v : α) : List (κ × α) → List (κ × α)
  | [] => [(k, v)]
  | (k0, v0) :: t => if k0 = k then (k, v) :: t else (k0, v0) :: dinsert k v t

/-- Python defaultdict(list) append d[k].append(v). -/
def dappend {κ α : Type} [DecidableEq κ] (k : κ) (v : α) : List (κ × List α) → List (κ × List α)
  | [] => [(k, [v])]
  | (k0, l0) :: t => if k0 = k then (k0, l0 ++ [v]) :: t else (k0, l0) :: dappend k v t

/-! ## entity_processing.py -/

/-- Source build_entity_map (entity_processing.py): map each enveloped
record's envelope id to its effective name (truthy top-level name, else
envelope name, else Unknown) and envelope type (else Unknown); records
without an envelope are skipped. -/
def build_entity_map (entries : List Record) : List (Nat × EntityInfo) :=
  entries.foldl
    (fun m entry =>
      match entry.entity with
      | some e => dinsert e.id ⟨pyOr entry.name (e.name.getD "Unknown"), e.type.getD "Unknown"⟩ m
      | none => m)
    []

/-- Source build_character_id_to_entity_id (entity_processing.py): for each
record whose envelope is present with type_id 1, map the record's top-level
id to the envelope id.  Direct indexing of the top-level id raises in the
source when the key is absent, modelled as Option.none. -/
def build_character_id_to_entity_id (entries : List Record) : Option (List (Nat × Nat)) :=
  entries.foldlM
    (fun m entry =>
      match entry.entity with
      | some e =>
        if e.type_id = some 1 then
          match entry.id with
          | some i => some (dinsert i e.id m)
          | none => none
        else some m
      | none => some m)
    []

/-! ## Spec-side view of mention rewriting (for the refinement statement)

A text is presented as a sequence of segments, each either a plain
character that is not an opening square bracket, or a mention token made
of a non-empty word group and a non-empty digit group.  This is the
decomposition under which the specification describes replace_mentions. -/

/-- A segment of a text: a plain character or one mention token. -/
inductive MentionSeg where
  | raw (c : Char)
  | tok (w : List Char) (d : List Char)
  deriving Repr, DecidableEq

/-- Flatten a segment sequence back into the literal text, writing each
token as bracket, word, colon, digits, bracket. -/
def flatSegs : List MentionSeg → List Char
  | [] => []
  | .raw c :: t => c :: flatSegs t
  | .tok w d :: t => '[' :: (w ++ ':' :: (d ++ ']' :: flatSegs t))

/-- Well-formedness of one segment: a raw character is not an opening
square bracket, a token has a non-empty all-word-character word group and
a non-empty all-digit digit group. -/
def segWF : MentionSeg → Bool
  | .raw c => c ≠ '['
  | .tok w d => !w.isEmpty && w.all isWordChar && !d.isEmpty && d.all Char.isDigit

/-- Spec-side rendering of one segment, written from the specification's
words: a raw character is untouched; a token whose numeral is a key of the
identity map becomes the markdown link made of that entry's name and the
name's generated anchor; any other token becomes the bold placeholder. -/
def specRenderSeg (entity_map : List (Nat × EntityInfo)) : MentionSeg → List Char
  | .raw c => [c]
  | .tok _ d =>
    let n := digitsToNat d
    match entity_map.lookup n with
    | some info => ("[" ++ info.name ++ "](#" ++ anchorOf info.name ++ ")").data
    | none => ("**Entity_" ++ toString n ++ "**").data

/-- Spec-side rendering of a whole segment sequence. -/
def specRenderSegs (entity_map : List (Nat × EntityInfo)) (segs : List MentionSeg) : List Char :=
  (segs.map (specRenderSeg entity_map)).flatten

/-! ## worldbook_generator.py: the generic entity tree (build_entity_tree)

TreeNode construction and the relationship-building loop of
build_entity_tree.  The imperative loop visits the node dict in insertion
order and appends every node either to its parent's children list (when
its parent id is truthy and a key of the node dict) or to the root list;
that single placement per node is expressed below as filters over the
node dict in the same order. -/

/-- Python-or of two optional numbers: the left one when it is truthy
(present and nonzero), the right one as is otherwise. -/
def pyOrNat (a b : Option Nat) : Option Nat :=
  if truthyNat a then a else b

/-- Python str.lower() over a whole string (the repertoire of
pyLowerChar). -/
def pyLower (s : String) : String :=
  String.mk (s.data.map pyLowerChar)

/-- Code-point lexicographic strict comparison of character lists, the
order Python uses to compare strings. -/
def listLexLt : List Char → List Char → Bool
  | [], [] => false
  | [], _ :: _ => true
  | _ :: _, [] => false
  | a :: as, b :: bs => a.val < b.val || (a = b && listLexLt as bs)

/-- Python string strict comparison. -/
def strLtB (a b : String) : Bool :=
  listLexLt a.data b.data

/-- Boolean prefix test on character lists. -/
def isPrefixOfB : List Char → List Char → Bool
  | [], _ => true
  | _ :: _, [] => false
  | a :: as, b :: bs => a = b && isPrefixOfB as bs

/-- Boolean infix test on character lists. -/
def isInfixOfB (needle : List Char) : List Char → Bool
  | [] => needle.isEmpty
  | c :: t => isPrefixOfB needle (c :: t) || isInfixOfB needle t

/-- Python str.startswith of the details-block guard. -/
def startsDashB (details_block : String) : Bool :=
  isPrefixOfB "\n- ".data details_block.data

/-- Parent id selection of TreeNode: a per-type field-name lookup keyed by
the lowercased envelope type, defaulting to the top-level parent_id or,
when that is falsy, the envelope parent_id. -/
def treeParentId (r : Record) : Option Nat :=
  let entity_type := pyLower (match r.entity with
    | some e => e.type.getD ""
    | none => "")
  match entity_type with
  | "journal" => r.journal_id
  | "location" => r.location_id
  | "race" => r.race_id
  | "quest" => r.quest_id
  | "note" => r.note_id
  | "family" => r.family_id
  | "organisation" => r.organisation_id
  | "item" => r.item_id
  | "calendar" => r.calendar_id
  | "timeline" => r.timeline_id
  | "map" => r.map_id
  | "tag" => r.tag_id
  | _ => pyOrNat r.parent_id (r.entity.bind Envelope.parent_id)

/-- Effective node id of TreeNode (get_id): truthy top-level id, else the
envelope id; None when neither exists (a Python dict accepts None keys). -/
def treeNodeId (r : Record) : Option Nat :=
  pyOrNat r.id (r.entity.map Envelope.id)

/-- The node dict of build_entity_tree: one TreeNode per record, keyed by
its effective id, later records replacing earlier ones with the same key. -/
def tree_nodes (entities_list : List Record) : List (Option Nat × Record) :=
  entities_list.foldl (fun m r => dinsert (treeNodeId r) r m) []

/-- Resolved parent of a node, the test of the relationship loop: the
parent id when it is truthy and a key of the node dict, None otherwise. -/
def treeParentResolved (entities_list : List Record) (r : Record) : Option Nat :=
  match treeParentId r with
  | some p =>
    if p ≠ 0 && ((tree_nodes entities_list).lookup (some p)).isSome then some p else none
  | none => none

/-- Root list returned by build_entity_tree: the nodes whose parent does
not resolve, in node-dict order. -/
def build_entity_tree_roots (entities_list : List Record) : List Record :=
  ((tree_nodes entities_list).map Prod.snd).filter
    (fun r => (treeParentResolved entities_list r).isNone)

/-- Children list of the node keyed k in the forest of build_entity_tree:
the nodes whose parent resolves to k, in node-dict order (the order the
loop appends them). -/
def build_entity_tree_children (entities_list : List Record) (k : Option Nat) : List Record :=
  ((tree_nodes entities_list).map Prod.snd).filter
    (fun r => match treeParentResolved entities_list r with
      | some p => k == some p
      | none => false)

/-- Parent/child edge set of the forest of build_entity_tree, an edge
being the resolved parent key paired with the child's effective id. -/
def build_entity_tree_edges (entities_list : List Record) : List (Nat × Option Nat) :=
  ((tree_nodes entities_list).map Prod.snd).filterMap
    (fun r => (treeParentResolved entities_list r).map (fun p => (p, treeNodeId r)))

/-! ## worldbook_generator.py: paginate_and_columnize -/

/-- The page-accumulation loop of paginate_and_columnize: append lines to
the current page, flushing whenever it reaches lines_per_page lines, and
flush the non-empty remainder at the end. -/
def pagesLoop (lines_per_page : Nat) (current : List String) : List String → List (List String)
  | [] => if current.isEmpty then [] else [current]
  | l :: ls =>
    let c := current ++ [l]
    if c.length = lines_per_page then c :: pagesLoop lines_per_page [] ls
    else pagesLoop lines_per_page c ls

/-- Python backslash-n str.join on a list of lines: the lines separated
by single newline characters, empty for the empty list. -/
def joinNL : List String → String
  | [] => ""
  | [s] => s
  | s :: t => s ++ "\n" ++ joinNL t

/-- Python line.strip() == two quotes: the line is whitespace-only. -/
def isBlankLine (s : String) : Bool :=
  s.data.all isPySpace

/-- The trailing-blank-removal loop (while col and col minus-one strip
empty, pop). -/
def dropTrailingBlank (col : List String) : List String :=
  ((col.reverse).dropWhile isBlankLine).reverse

/-- The per-page body of paginate_and_columnize: split the page into two
columns at the half-page mark, drop trailing blank lines of each column,
and join the two columns with a slash delimiter line. -/
def renderPage (lines_per_page : Nat) (page : List String) : String :=
  let col_break := lines_per_page / 2
  let col1 := dropTrailingBlank (page.take col_break)
  let col2 := dropTrailingBlank (page.drop col_break)
  joinNL col1 ++ "\n/\n" ++ joinNL col2

/-- Source paginate_and_columnize (worldbook_generator.py): chunk the line
list into pages of lines_per_page lines and render each page as two
slash-separated columns. -/
def paginate_and_columnize (lines : List String) (lines_per_page : Nat := 55) : List String :=
  let pages := pagesLoop lines_per_page [] lines
  pages.map (renderPage lines_per_page)

/-- Split a character list at newline characters (the reading direction of
joining emitted segments back into lines). -/
def splitNLChars : List Char → List (List Char)
  | [] => [[]]
  | c :: cs =>
    if c = '\n' then [] :: splitNLChars cs
    else
      match splitNLChars cs with
      | h :: t => (c :: h) :: t
      | [] => [[c]]

/-- Split a string into its lines. -/
def splitNL (s : String) : List String :=
  (splitNLChars s.data).map String.mk

/-- Recombination of emitted page/column segments, as the specification
describes it: split every segment back into lines, drop the slash
delimiter lines, and concatenate everything in order. -/
def stripDelimiterLines (segs : List String) : List String :=
  (segs.map (fun s => (splitNL s).filter (fun l => l ≠ "/"))).flatten

/-! ## worldbook_generator.py: generate_worldbook

The render pass.  The language argument and the translation lookups
(get_ui_text, get_chapter_title, get_chapter_slug, backed by the
translations.json data file), the BeautifulSoup-based HTML-to-markdown
stage convert_mentions_in_html, and the gallery-image filesystem lookup
(get_entity_image_markdown guarded by os.path.exists) are external
collaborators per the specification; they enter as the explicit function
bundle Collab below.  Statements that can raise KeyError in the source
(direct dict indexing) run in the Except monad; sort KEY functions that
index the envelope directly (three sorted calls) are modelled totally by
the safe-get fallback, which coincides with the source whenever the
records being sorted carry envelopes. -/

/-- The external collaborators of the render pass. -/
structure Collab where
  uiText : String → String
  chapterTitle : String → String
  chapterSlug : String → String
  cmih : String → String
  image : Record → String → String

/-- The pre-bucketed entity collection handed to generate_worldbook
(assembled by main.process_entities); each field holds the dict-get view
the source takes of the corresponding key.  journals is Optional because
the source guards it against an explicit None value. -/
structure Entities where
  campaign : Option Record := none
  locations : List (Nat × Record) := []
  characters : List Record := []
  charlocations : List (Nat × Record) := []
  organizations : List Record := []
  events : List Record := []
  entity_map : List (Nat × EntityInfo) := []
  character_id_to_entity_id : List (Nat × Nat) := []
  notes : List Record := []
  items : List Record := []
  families : List Record := []
  races : List Record := []
  journals : Option (List Record) := some []
  calendars : List Record := []
  tags : List Record := []
  quests : List Record := []
  maps : List Record := []
  timelines : List Record := []

/-- Source is_private_obj (worldbook_generator.py): the record's own
is_private equals 1, or its envelope's does. -/
def is_private_obj (obj : Record) : Bool :=
  obj.is_private.getD 0 = 1 ||
  (match obj.entity with
   | some e => e.is_private.getD 0 = 1
   | none => false)

/-- Stable insertion step: insert after every earlier element whose key is
not greater, matching Python's stable sort order. -/
def insertByLt {α : Type} (lt : α → α → Bool) (a : α) : List α → List α
  | [] => [a]
  | b :: l => if lt a b then a :: b :: l else b :: insertByLt lt a l

/-- Stable ascending sort by a boolean strict comparison (Python sorted):
inserting every element in order after the equal-key elements already
placed gives the stable ascending order. -/
def sortByLt {α : Type} (lt : α → α → Bool) (l : List α) : List α :=
  l.foldl (fun acc a => insertByLt lt a acc) []

/-- The common name sort key of the render pass: truthy top-level name,
else envelope name, else the empty string. -/
def sortNameKey (r : Record) : String :=
  pyOr r.name ((r.entity.bind Envelope.name).getD "")

/-- Boolean strict comparison of records by sortNameKey. -/
def nameKeyLt (a b : Record) : Bool :=
  strLtB (sortNameKey a) (sortNameKey b)

/-- TreeNode.get_name of the generic tree: truthy top-level name, else
envelope name, else Unnamed. -/
def treeGetName (r : Record) : String :=
  pyOr r.name ((r.entity.bind Envelope.name).getD "Unnamed")

/-- Boolean strict comparison of tree nodes by treeGetName. -/
def treeNameLt (a b : Record) : Bool :=
  strLtB (treeGetName a) (treeGetName b)

/-- Post sort key comparison: by the pair of position (default 0) and
created_at (default empty), lexicographically. -/
def postLt (p q : Post) : Bool :=
  decide (p.position.getD 0 < q.position.getD 0) ||
  (p.position.getD 0 = q.position.getD 0 &&
    strLtB (p.created_at.getD "") (q.created_at.getD ""))

/-- Python-or of two optional strings: the left when truthy, else the
right as is. -/
def pyOrStrOpt (a b : Option String) : Option String :=
  if truthyStr a then a else b

/-- Python str() of an optional number, as an f-string interpolates it. -/
def pyReprOptNat (a : Option Nat) : String :=
  match a with
  | some n => toString n
  | none => "None"

/-- Python str.strip() on a string. -/
def pyStripStr (s : String) : String :=
  String.mk (pyStrip s.data)

/-- Direct dict indexing: the value, or a raised KeyError. -/
def keyErr {α : Type} (o : Option α) (msg : String) : Except String α :=
  match o with
  | some a => .ok a
  | none => .error msg

/-- Repeat a character (the header and anchor marker runs). -/
def repChar (c : Char) (n : Nat) : String :=
  String.mk (List.replicate n c)

/-- Dict keyed by the records' own top-level id, as the location_by_id and
charlocations_by_id comprehensions build it; direct indexing of a missing
id raises. -/
def buildByIdE (l : List Record) : Except String (List (Nat × Record)) :=
  l.foldlM
    (fun m r =>
      match r.id with
      | some i => .ok (dinsert i r m)
      | none => .error "KeyError: 'id'")
    []

/-- A record's location detail line payload: when the record's location_id
is truthy and a key of location_by_id, the found location's effective name
(which may still be falsy, suppressing the detail line). -/
def locDetailName (location_by_id : List (Nat × Record)) (r : Record) : Option String :=
  match r.location_id with
  | some p =>
    if p ≠ 0 then
      match location_by_id.lookup p with
      | some loc => pyOrStrOpt loc.name (loc.entity.bind Envelope.name)
      | none => none
    else none
  | none => none

/-- The resolved-member markdown line shared by the family-members and
organization-members lists: resolve the row's character id through the
character index and then the identity map; a link when found, the given
unknown-member text otherwise. -/
def memberInfo (character_id_to_entity_id : List (Nat × Nat))
    (entity_map : List (Nat × EntityInfo)) (char_id : Option Nat) : Option EntityInfo :=
  (char_id.bind (fun i => character_id_to_entity_id.lookup i)).bind
    (fun eid => entity_map.lookup eid)

/-- Source write_hierarchical_entity (worldbook_generator.py): one block of
a hierarchy-rendered section: the depth-two header with plus-run anchor,
the optional image, the details list (privacy, location link, type, tags,
age, gender), the mention-resolved entry, the family-member list, and the
visibility-filtered posts. -/
def write_hierarchical_entity (cb : Collab) (entity_map : List (Nat × EntityInfo))
    (character_id_to_entity_id : List (Nat × Nat)) (location_by_id : List (Nat × Record))
    (include_private : Bool) (include_posts : Bool)
    (entity : Record) (depth : Nat) (max_depth : Nat) : List String :=
  if depth > max_depth then [] else
  let ent_name := (entity.entity.bind Envelope.name).getD "Unnamed"
  let name := pyOr entity.name ent_name
  let anchor := anchorOf name
  let pluses := repChar '+' (depth + 2)
  let headerLines := ["## " ++ md_escape (some name) ++ " ((" ++ pluses ++ anchor ++ "))", ""]
  let im := cb.image entity name
  let imageLines := if im ≠ "" then [im] else []
  let entry_html := pyOr entity.entry (pyOr (entity.entity.bind Envelope.entry) "")
  let entry_md := replace_mentions (cb.cmih entry_html) entity_map
  let details : List String :=
    (if is_private_obj entity then
      ["- **" ++ cb.uiText "private" ++ ":** " ++ cb.uiText "yes"] else []) ++
    (let loc_name := locDetailName location_by_id entity
     if truthyStr loc_name then
      ["- **" ++ cb.uiText "location" ++ ":** [" ++ md_escape loc_name ++ "](#" ++
        create_anchor_label loc_name ++ ")"] else []) ++
    (if truthyStr (entity.entity.bind Envelope.type) then
      ["- **" ++ cb.uiText "type" ++ ":** " ++ md_escape (entity.entity.bind Envelope.type)]
     else []) ++
    (let tagList := (entity.entity.map Envelope.tags).getD []
     if tagList.isEmpty then [] else
     let tag_names := tagList.filterMap (fun t =>
       match t with
       | TagVal.obj n => some n
       | TagVal.str s => some s
       | TagVal.other => none)
     if tag_names.isEmpty then [] else
      ["- **" ++ cb.uiText "tags" ++ ":** " ++ String.intercalate ", " tag_names]) ++
    (if truthyStr entity.age then
      ["- **" ++ cb.uiText "age" ++ ":** " ++ entity.age.getD ""] else []) ++
    (if truthyStr entity.gender then
      ["- **" ++ cb.uiText "gender" ++ ":** " ++ entity.gender.getD ""] else [])
  let details_md :=
    if details.isEmpty then "" else
    let details_block := String.intercalate "\n" details
    let details_block :=
      if !(startsDashB details_block) then "\n" ++ details_block else details_block
    "\n\n---\n**" ++ cb.uiText "details" ++ ":**\n" ++ details_block ++ "\n\n"
  let entryLines := [details_md ++ entry_md]
  let memberLines :=
    if entity.pivotMembers.isEmpty then [] else
    ("**" ++ cb.uiText "family_members" ++ ":**\n") ::
    (entity.pivotMembers.map (fun member =>
      match memberInfo character_id_to_entity_id entity_map member.character_id with
      | some info =>
        "- [" ++ md_escape (some info.name) ++ "](#" ++ anchorOf info.name ++ ")"
      | none => "- **Unknown member " ++ pyReprOptNat member.character_id ++ "**")) ++
    [""]
  let posts := (entity.entity.map Envelope.posts).getD []
  let postLines :=
    if !posts.isEmpty && include_posts then
      (sortByLt postLt posts).flatMap (fun post =>
        if !include_private && post.visibility_id.getD 1 ≠ 1 then [] else
        let post_name := post.name.getD (cb.uiText "unnamed_post")
        let post_entry := post.entry.getD ""
        if post_entry.isEmpty ||
           (pyStripStr post_entry).isEmpty ||
           pyStripStr post_entry = "<br>" ||
           pyStripStr post_entry = "<br/>" ||
           pyStripStr post_entry = "<br />" then [] else
        let post_anchor := anchorOf (name ++ "_" ++ post_name)
        let post_pluses := repChar '+' (depth + 3)
        let post_entry_md := replace_mentions (cb.cmih post_entry) entity_map
        ["### " ++ md_escape (some post_name) ++ " ((" ++ post_pluses ++ post_anchor ++ "))",
         "", post_entry_md ++ "\n", "---", ""])
    else []
  headerLines ++ imageLines ++ entryLines ++ memberLines ++ postLines ++ ["---"]

/-- Depth-first traversal of write_hierarchical_section: write the node,
then its children sorted by display name, one level deeper; fuel-indexed
for structural recursion (any fuel above max_depth is adequate because
depth grows by one per level and the depth guard cuts first). -/
def traverseHier (cb : Collab) (entity_map : List (Nat × EntityInfo))
    (character_id_to_entity_id : List (Nat × Nat)) (location_by_id : List (Nat × Record))
    (include_private : Bool) (include_posts : Bool)
    (entities_list : List Record) (max_depth : Nat) :
    Nat → Nat → Record → List String
  | 0, _, _ => []
  | fuel + 1, depth, node =>
    if depth > max_depth then [] else
    write_hierarchical_entity cb entity_map character_id_to_entity_id location_by_id
      include_private include_posts node depth max_depth ++
    ((sortByLt treeNameLt (build_entity_tree_children entities_list (treeNodeId node))).map
      (traverseHier cb entity_map character_id_to_entity_id location_by_id
        include_private include_posts entities_list max_depth fuel (depth + 1))).flatten

/-- Source write_hierarchical_section (worldbook_generator.py): the chapter
header, then the name-sorted roots of the bucket's tree, each traversed
depth-first. -/
def write_hierarchical_section (cb : Collab) (entity_map : List (Nat × EntityInfo))
    (character_id_to_entity_id : List (Nat × Nat)) (location_by_id : List (Nat × Record))
    (include_private : Bool) (include_posts : Bool)
    (title : String) (entities_list : List Record) (section_slug : String)
    (max_depth : Nat := 5) : List String :=
  if entities_list.isEmpty then [] else
  ["# " ++ title ++ " ((+" ++ section_slug ++ "))", ""] ++
  ((sortByLt treeNameLt (build_entity_tree_roots entities_list)).map
    (traverseHier cb entity_map character_id_to_entity_id location_by_id
      include_private include_posts entities_list max_depth (max_depth + 2) 0)).flatten

/-- Source write_location (worldbook_generator.py): one location block with
depth-scaled header markers and plus-run anchor, image, privacy details,
mention-resolved entry, the characters-at-this-location list, then the
name-sorted child locations one level deeper.  Direct indexing of the
location's envelope and top-level id raises in the source, hence the
Except monad; fuel-indexed for structural recursion. -/
def write_location (cb : Collab) (entity_map : List (Nat × EntityInfo))
    (loc_children : Nat → List Record) (chars_by_location : List (Nat × List Record)) :
    Nat → Nat → Nat → Record → Except String (List String)
  | 0, _, _, _ => .ok []
  | fuel + 1, depth, max_depth, loc => do
    if depth > max_depth then return [] else
    let ent ← keyErr loc.entity "KeyError: 'entity'"
    let loc_name := pyOr loc.name (ent.name.getD "Unnamed Location")
    let anchor := anchorOf loc_name
    let header_markers := repChar '#' (depth + 2)
    let pluses := repChar '+' (depth + 2)
    let extra_newlines := if depth ≥ 4 then "\n\n" else ""
    let headerLine :=
      "\n" ++ extra_newlines ++ header_markers ++ " " ++ md_escape (some loc_name) ++
      " ((" ++ pluses ++ anchor ++ "))\n\n"
    let im := cb.image loc loc_name
    let imageLines := if im ≠ "" then [im] else []
    let entry_html := pyOr loc.entry (pyOr ent.entry "")
    let entry_md := replace_mentions (cb.cmih entry_html) entity_map
    let details : List String :=
      if is_private_obj loc then
        ["- **" ++ cb.uiText "private" ++ ":** " ++ cb.uiText "yes"] else []
    let detailLines :=
      if details.isEmpty then [] else
      let details_block := String.intercalate "\n" details
      let details_block :=
        if !(startsDashB details_block) then "\n" ++ details_block else details_block
      ["\n---\n**" ++ cb.uiText "details" ++ ":**\n\n" ++ details_block ++ "\n\n"]
    let entryLines := if (pyStripStr entry_md).isEmpty then [] else [entry_md ++ "\n\n"]
    let chars_here := (chars_by_location.lookup ent.id).getD []
    let charItems ← (sortByLt nameKeyLt chars_here).mapM (fun c => do
      let cEnt ← keyErr c.entity "KeyError: 'entity'"
      let c_name := pyOr c.name (cEnt.name.getD "Unnamed Character")
      let c_anchor := anchorOf c_name
      pure ("- [" ++ md_escape (some c_name) ++ "](#" ++ c_anchor ++ ")\n"))
    let locId ← keyErr loc.id "KeyError: 'id'"
    let childLines ← (sortByLt nameKeyLt (loc_children locId)).mapM
      (write_location cb entity_map loc_children chars_by_location fuel (depth + 1) max_depth)
    let charLines :=
      if chars_here.isEmpty then [] else
      ("**" ++ cb.uiText "characters_at_location" ++ ": " ++ md_escape (some loc_name) ++
        ":**\n\n") :: charItems ++ ["\n"]
    return [headerLine] ++ imageLines ++ detailLines ++ entryLines ++ charLines ++
      childLines.flatten

/-- Source write_race (worldbook_generator.py): like write_location without
the character list, children drawn from the race_children table keyed by
the race's top-level id. -/
def write_race (cb : Collab) (entity_map : List (Nat × EntityInfo))
    (race_children : Nat → List Record) :
    Nat → Nat → Nat → Record → Except String (List String)
  | 0, _, _, _ => .ok []
  | fuel + 1, depth, max_depth, race => do
    if depth > max_depth then return [] else
    let race_name := pyOr race.name ((race.entity.bind Envelope.name).getD "Unnamed Race")
    let anchor := anchorOf race_name
    let header_markers := repChar '#' (depth + 2)
    let pluses := repChar '+' (depth + 2)
    let extra_newlines := if depth ≥ 4 then "\n\n" else ""
    let headerLine :=
      "\n" ++ extra_newlines ++ header_markers ++ " " ++ md_escape (some race_name) ++
      " ((" ++ pluses ++ anchor ++ "))\n\n"
    let im := cb.image race race_name
    let imageLines := if im ≠ "" then [im] else []
    let entry_html := pyOr race.entry (pyOr (race.entity.bind Envelope.entry) "")
    let entry_md := replace_mentions (cb.cmih entry_html) entity_map
    let details : List String :=
      if is_private_obj race then
        ["- **" ++ cb.uiText "private" ++ ":** " ++ cb.uiText "yes"] else []
    let detailLines :=
      if details.isEmpty then [] else
      let details_block := String.intercalate "\n" details
      let details_block :=
        if !(startsDashB details_block) then "\n" ++ details_block else details_block
      ["\n---\n**" ++ cb.uiText "details" ++ ":**\n" ++ details_block ++ "\n\n"]
    let entryLines := if (pyStripStr entry_md).isEmpty then [] else [entry_md ++ "\n\n"]
    let raceId ← keyErr race.id "KeyError: 'id'"
    let childLines ← (sortByLt nameKeyLt (race_children raceId)).mapM
      (write_race cb entity_map race_children fuel (depth + 1) max_depth)
    return [headerLine] ++ imageLines ++ detailLines ++ entryLines ++ childLines.flatten

/-- Source generate_organizations (worldbook_generator.py): the chapter as
one markdown string: header, then per name-sorted organization a block with
header, image, privacy details, envelope-entry mentions (no HTML stage
here), and the member list resolved through the character index. -/
def generate_organizations (cb : Collab) (organizations : List Record)
    (entity_map : List (Nat × EntityInfo)) (character_id_to_entity_id : List (Nat × Nat)) :
    String :=
  let header :=
    "\n# " ++ cb.chapterTitle "organizations" ++ "  ((+" ++ cb.chapterSlug "organizations" ++
    "))\n\n"
  (sortByLt nameKeyLt organizations).foldl
    (fun markdown org =>
      let org_name := pyOr org.name ((org.entity.bind Envelope.name).getD "Unnamed Organization")
      let anchor := anchorOf org_name
      let markdown := markdown ++ "## " ++ md_escape (some org_name) ++ " ((++" ++ anchor ++
        "))\n\n"
      let im := cb.image org org_name
      let markdown := markdown ++ (if im ≠ "" then im else "")
      let entry := org.entity.bind Envelope.entry
      let details : List String :=
        if is_private_obj org then
          ["- **" ++ cb.uiText "private" ++ ":** " ++ cb.uiText "yes"] else []
      let markdown := markdown ++
        (if details.isEmpty then "" else
         let details_block := String.intercalate "\n" details
         let details_block :=
           if !(startsDashB details_block) then "\n" ++ details_block else details_block
         "\n---\n**" ++ cb.uiText "details" ++ ":**\n" ++ details_block ++ "\n\n")
      let markdown := markdown ++
        (if truthyStr entry then
          replace_mentions (entry.getD "") entity_map ++ "\n\n"
         else "")
      let markdown := markdown ++
        (if org.members.isEmpty then "" else
         "**" ++ cb.uiText "members" ++ ":**\n\n" ++
         (org.members.foldl (fun acc member =>
           acc ++
           (match memberInfo character_id_to_entity_id entity_map member.character_id with
            | some info =>
              let base := "- [" ++ md_escape (some info.name) ++ "](#" ++ anchorOf info.name ++
                ")"
              if truthyStr member.role then
                base ++ " (" ++ md_escape member.role ++ ")\n"
              else base ++ "\n"
            | none =>
              "- **" ++ cb.uiText "unknown_member" ++ " " ++ pyReprOptNat member.character_id ++
              "**\n")) "") ++
         "\n")
      markdown)
    header

/-- One character block of the characters chapter of generate_worldbook
(the inline loop over chars_without_location): header, image, the details
list (privacy, race, location, family, age, gender, dead), the
mention-resolved entry, and the visibility-filtered posts.  Direct
indexing of the character's envelope raises, hence the Except monad. -/
def write_character_block (cb : Collab) (entity_map : List (Nat × EntityInfo))
    (location_by_id : List (Nat × Record)) (include_private : Bool) (include_posts : Bool)
    (c : Record) : Except String (List String) := do
  let c_ent ← keyErr c.entity "KeyError: 'entity'"
  let c_name := pyOr c.name (c_ent.name.getD "Unnamed Character")
  let anchor := anchorOf c_name
  let entry_html := pyOr c.entry ""
  let entry := replace_mentions (cb.cmih entry_html) entity_map
  let raceRef : Option RefRow :=
    if !c.character_races.isEmpty then (c.character_races.headD {}).ref
    else if !c.characterRaces.isEmpty then (c.characterRaces.headD {}).ref
    else none
  let famRef : Option RefRow :=
    if !c.character_families.isEmpty then (c.character_families.headD {}).ref
    else if !c.characterFamilies.isEmpty then (c.characterFamilies.headD {}).ref
    else none
  let details : List String :=
    (if is_private_obj c then
      ["- **" ++ cb.uiText "private" ++ ":** " ++ cb.uiText "yes"] else []) ++
    (match raceRef with
     | some ref =>
       if truthyStr ref.name then
         if truthyNat ref.id then
           ["- **" ++ cb.uiText "race" ++ ":** [" ++ md_escape ref.name ++ "](#" ++
             create_anchor_label ref.name ++ ")"]
         else ["- **" ++ cb.uiText "race" ++ ":** " ++ md_escape ref.name]
       else []
     | none => []) ++
    (let loc_name := locDetailName location_by_id c
     if truthyStr loc_name then
      ["- **" ++ cb.uiText "location" ++ ":** [" ++ md_escape loc_name ++ "](#" ++
        create_anchor_label loc_name ++ ")"] else []) ++
    (match famRef with
     | some ref =>
       if truthyStr ref.name then
         if truthyNat ref.id then
           ["- **" ++ cb.uiText "family" ++ ":** [" ++ md_escape ref.name ++ "](#" ++
             create_anchor_label ref.name ++ ")"]
         else ["- **" ++ cb.uiText "family" ++ ":** " ++ md_escape ref.name]
       else []
     | none => []) ++
    (if truthyStr c.age then
      ["- **" ++ cb.uiText "age" ++ ":** " ++ md_escape c.age] else []) ++
    (if truthyStr c.sex then
      ["- **" ++ cb.uiText "gender" ++ ":** " ++ md_escape c.sex]
     else if truthyStr c.gender then
      ["- **" ++ cb.uiText "gender" ++ ":** " ++ md_escape c.gender]
     else []) ++
    (if truthyNat c.is_dead || truthyNat c_ent.is_dead then
      ["- **" ++ cb.uiText "dead" ++ ":** " ++ cb.uiText "yes"] else [])
  let details_md :=
    if details.isEmpty then "" else
    let details_block := String.intercalate "\n" details
    let details_block :=
      if !(startsDashB details_block) then "\n" ++ details_block else details_block
    "\n\n---\n**" ++ cb.uiText "details" ++ ":**\n" ++ details_block ++ "\n\n"
  let headerLine := "## " ++ md_escape (some c_name) ++ " ((++" ++ anchor ++ "))\n\n"
  let im := cb.image c c_name
  let imageLines := if im ≠ "" then [im] else []
  let bodyLine := details_md ++ entry ++ "\n"
  let posts := c_ent.posts
  let postLines :=
    if !posts.isEmpty && include_posts then
      (sortByLt postLt posts).flatMap (fun post =>
        if !include_private && post.visibility_id.getD 1 ≠ 1 then [] else
        let post_name := post.name.getD (cb.uiText "unnamed_post")
        let post_entry := post.entry.getD ""
        if post_entry.isEmpty ||
           (pyStripStr post_entry).isEmpty ||
           pyStripStr post_entry = "<br>" ||
           pyStripStr post_entry = "<br/>" ||
           pyStripStr post_entry = "<br />" then [] else
        let post_anchor := anchorOf (c_name ++ "_" ++ post_name)
        let post_entry_md := replace_mentions (cb.cmih post_entry) entity_map
        ["### " ++ md_escape (some post_name) ++ " ((+++" ++ post_anchor ++ "))\n\n",
         post_entry_md ++ "\n", "---", ""])
    else []
  return [headerLine] ++ imageLines ++ [bodyLine] ++ postLines ++ ["---\n"]

/-- The privacy filter applied to a list bucket (lines 389 to 398 of the
source): with include_private false, keep only records whose
is_private_obj test fails; with include_private true, keep everything. -/
def privacyFilterList (include_private : Bool) (l : List Record) : List Record :=
  if include_private then l else l.filter (fun r => !is_private_obj r)

/-- The privacy filter applied to an id-keyed bucket (the dict
comprehensions of lines 390 and 392 of the source). -/
def privacyFilterDict (include_private : Bool) (d : List (Nat × Record)) :
    List (Nat × Record) :=
  if include_private then d else d.filter (fun kv => !is_private_obj kv.2)

/-- The bucket collection after the privacy-filter stage of
generate_worldbook: exactly nine collections are filtered (locations,
characters, charlocations, organizations, events, items, families, notes,
races); the campaign and the journal, calendar, tag, quest, map and
timeline buckets pass through unfiltered. -/
def filteredBuckets (entities : Entities) (include_private : Bool) : Entities :=
  { entities with
    locations := privacyFilterDict include_private entities.locations
    characters := privacyFilterList include_private entities.characters
    charlocations := privacyFilterDict include_private entities.charlocations
    organizations := privacyFilterList include_private entities.organizations
    events := privacyFilterList include_private entities.events
    items := privacyFilterList include_private entities.items
    families := privacyFilterList include_private entities.families
    notes := privacyFilterList include_private entities.notes
    races := privacyFilterList include_private entities.races }

/-- Source generate_worldbook (worldbook_generator.py): the full render
pass.  Unpack the buckets, apply the privacy filter to the nine filtered
collections when include_private is false, guard journals against None,
build location_by_id and charlocations_by_id (direct id indexing), build
the location forest and the characters-at-location table, then emit the
chapters in order: campaign, locations, characters (the
chars_without_location variable aliases the full character list),
events, organizations, notes, items, families, races, journals, quests,
tags, maps, calendars, timelines, and the generation-settings footer.
The fallible renderers run first (the three blocks of location, character
and race renderings are each computed by a mapM that yields the empty
list on an empty bucket, which the source reaches only behind its
emptiness tests; both give the same value) and the chapter assembly is
the pure tail. -/
def generate_worldbook (cb : Collab) (entities : Entities)
    (include_private : Bool := false) (include_posts : Bool := true) :
    Except String String := do
  let fb := filteredBuckets entities include_private
  let campaign := fb.campaign
  let locations := fb.locations
  let characters := fb.characters
  let charlocations := fb.charlocations
  let organizations := fb.organizations
  let events := fb.events
  let entity_map := fb.entity_map
  let character_id_to_entity_id := fb.character_id_to_entity_id
  let notes := fb.notes
  let items := fb.items
  let families := fb.families
  let races := fb.races
  let calendars := fb.calendars
  let tags := fb.tags
  let quests := fb.quests
  let maps := fb.maps
  let timelines := fb.timelines
  let journals := fb.journals.getD []
  let location_by_id ← buildByIdE (locations.map Prod.snd)
  let _ ← buildByIdE (charlocations.map Prod.snd)
  let locValues := location_by_id.map Prod.snd
  let locResolved : Record → Option Nat := fun r =>
    match r.location_id with
    | some p => if p ≠ 0 && (location_by_id.lookup p).isSome then some p else none
    | none => none
  let root_locations := locValues.filter (fun r => (locResolved r).isNone)
  let loc_children : Nat → List Record := fun i =>
    locValues.filter (fun r =>
      match locResolved r with
      | some p => p = i
      | none => false)
  let chars_by_location ← characters.foldlM
    (fun m c =>
      match c.location_id with
      | some p =>
        if p ≠ 0 then
          match location_by_id.lookup p with
          | some loc =>
            match loc.entity with
            | some e => .ok (dappend e.id c m)
            | none => .error "KeyError: 'entity'"
          | none => .ok m
        else .ok m
      | none => .ok m)
    ([] : List (Nat × List Record))
  let chars_without_location := characters
  let race_children : Nat → List Record := fun i =>
    races.filter (fun r => truthyNat r.race_id && r.race_id = some i)
  let root_races := races.filter (fun r => !truthyNat r.race_id)
  let locBlocks ← (sortByLt nameKeyLt root_locations).mapM
    (write_location cb entity_map loc_children chars_by_location 12 0 10)
  let charBlocks ← (sortByLt nameKeyLt chars_without_location).mapM
    (write_character_block cb entity_map location_by_id include_private include_posts)
  let raceBlocks ← (sortByLt nameKeyLt root_races).mapM
    (write_race cb entity_map race_children 12 0 10)
  let campaignSection : List String :=
    match campaign with
    | some camp =>
      let campaign_name := camp.name.getD "Campaign Overview"
      let im := cb.image camp campaign_name
      let entry_html := camp.entry.getD ""
      let details : List String :=
        if truthyStr camp.excerpt then
          ["- **" ++ cb.uiText "excerpt" ++ ":** " ++ md_escape camp.excerpt] else []
      ["# " ++ md_escape (some campaign_name) ++ " ((+campaign-overview))", ""] ++
      (if im ≠ "" then [im] else []) ++
      (if !entry_html.isEmpty then
        [replace_mentions (cb.cmih entry_html) entity_map ++ "\n"] else []) ++
      (if !details.isEmpty then
        ["\n---\n**" ++ cb.uiText "details" ++ ":**\n", String.intercalate "\n" details, "\n"]
       else []) ++
      ["---"]
    | none => []
  let hierSection := fun (chapter : String) (bucket : List Record) =>
    if bucket.isEmpty then [] else
    let s := write_hierarchical_section cb entity_map character_id_to_entity_id location_by_id
      include_private include_posts (cb.chapterTitle chapter) bucket (cb.chapterSlug chapter)
    if s.isEmpty then [] else s
  let loc_section :=
    ["# " ++ cb.chapterTitle "locations" ++ " ((+" ++ cb.chapterSlug "locations" ++ "))", ""] ++
    locBlocks.flatten
  let chars_section : List String :=
    if chars_without_location.isEmpty then [] else
    ["# " ++ cb.chapterTitle "characters" ++ "  ((+" ++ cb.chapterSlug "characters" ++ "))",
     ""] ++ charBlocks.flatten
  let orgs_section :=
    splitNL (generate_organizations cb organizations entity_map character_id_to_entity_id)
  let races_section :=
    ["# " ++ cb.chapterTitle "races" ++ " ((+" ++ cb.chapterSlug "races" ++ "))", ""] ++
    raceBlocks.flatten
  let output_lines : List String :=
    campaignSection ++
    (if loc_section.isEmpty then [] else loc_section) ++
    chars_section ++
    hierSection "events" events ++
    (if orgs_section.isEmpty then [] else orgs_section) ++
    hierSection "notes" notes ++
    hierSection "items" items ++
    hierSection "families" families ++
    (if races_section.isEmpty then [] else races_section) ++
    hierSection "journals" journals ++
    hierSection "quests" quests ++
    hierSection "tags" tags ++
    hierSection "maps" maps ++
    hierSection "calendars" calendars ++
    hierSection "timelines" timelines ++
    ["---",
     "## " ++ cb.uiText "generation_settings" ++ "\n",
     "- **" ++ cb.uiText "private_entities_display" ++ ":** " ++
       cb.uiText (if include_private then "yes" else "no") ++ "\n"]
  if output_lines.isEmpty then
    return ""
  else
    return String.intercalate "\n" output_lines

/-- Modelled from the spec: the collaborator bundle used to evaluate the
render pass at concrete inputs.  The localization lookup returns the key
itself, which is the source's own get_translation fallback when the
translations table holds no entry (the translations.json data file is not
part of the core); the HTML-to-markdown stage is the identity, which is
its behaviour on the tag-free, blank-run-free entry strings occurring in
the concrete inputs below; and the image lookup finds no image, which is
its behaviour when the gallery directory does not exist. -/
def collabId : Collab where
  uiText := fun k => k
  chapterTitle := fun k => k
  chapterSlug := fun k => k
  cmih := fun s => s
  image := fun _ _ => ""

/-! ## Concrete inputs used by the counterexamples and witnesses -/

/-- Substring test. -/
def strContains (hay needle : String) : Bool :=
  isInfixOfB needle.data hay.data

/-- Substring test under Except: true when the computation succeeded and
its result contains the needle. -/
def exceptOkContains (r : Except String String) (needle : String) : Bool :=
  match r with
  | .ok s => strContains s needle
  | .error _ => false

/-- Equality test under Except: true when the computation succeeded with
exactly the given string. -/
def exceptEqOk (r : Except String String) (s : String) : Bool :=
  match r with
  | .ok v => v = s
  | .error _ => false

/-- True when the computation raised. -/
def exceptIsError (r : Except String String) : Bool :=
  match r with
  | .ok _ => false
  | .error _ => true

/-- A private character (both flags set), type-local id 10, entity id 100. -/
def cexPrivChar : Record :=
  { id := some 10, name := some "Mysterio", is_private := some 1
    entity := some
      { id := 100, type := some "character", type_id := some 1, is_private := some 1 } }

/-- A public family whose only member row references character 10. -/
def cexFamily : Record :=
  { id := some 20, name := some "Fam"
    entity := some { id := 200, type := some "family", type_id := some 2 }
    pivotMembers := [{ character_id := some 10 }] }

/-- A private quest (envelope flag set). -/
def cexPrivQuest : Record :=
  { id := some 30, name := some "Secret Quest"
    entity := some { id := 300, type := some "quest", type_id := some 11, is_private := some 1 } }

/-- The entity collection of the privacy counterexample: a private
character, a public family pointing at it, and a private quest, with the
identity and character maps built the way main.process_entities builds
them — over the full unfiltered record list. -/
def cexPrivEntities : Entities :=
  { characters := [cexPrivChar], families := [cexFamily], quests := [cexPrivQuest]
    entity_map := [(100, ⟨"Mysterio", "character"⟩), (200, ⟨"Fam", "family"⟩),
      (300, ⟨"Secret Quest", "quest"⟩)]
    character_id_to_entity_id := [(10, 100)] }

/-- The location record of the end-to-end scenario, carrying its
type-local id 1 (required by the direct id indexing of the render pass)
alongside the envelope of entity id 1. -/
def cexTown : Record :=
  { id := some 1, name := some "Town"
    entity := some { id := 1, type := some "location", type_id := some 3 } }

/-- The character record of the end-to-end scenario, placed at location 1. -/
def cexAlice : Record :=
  { id := some 2, name := some "Alice", location_id := some 1
    entity := some { id := 2, type := some "character", type_id := some 1 } }

/-- The entity collection of the end-to-end scenario. -/
def cexScenario : Entities :=
  { locations := [(1, cexTown)], characters := [cexAlice]
    entity_map := [(1, ⟨"Town", "location"⟩)] }

/-- The document produced for an entirely empty entity collection: the
location, organization and race chapter headers plus the
generation-settings footer. -/
def emptySkeleton : String :=
  "# locations ((+locations))\n\n\n# organizations  ((+organizations))\n\n\n" ++
  "# races ((+races))\n\n---\n## generation_settings\n\n" ++
  "- **private_entities_display:** no\n"

/-- Segment sequence of the mention-rewriting witness: a token found in
the map, a space, and a token missing from the map. -/
def cexSegs : List MentionSeg :=
  [.tok ['c', 'h', 'a', 'r', 'a', 'c', 't', 'e', 'r'] ['1', '2'], .raw ' ',
   .tok ['x'] ['9']]

/-- Identity map of the mention-rewriting witness. -/
def cexSegMap : List (Nat × EntityInfo) :=
  [(12, ⟨"Ann", "character"⟩)]

/-- A record whose top-level name is present but empty while its envelope
carries a name: the identity map stores the envelope name, not the
present top-level one. -/
def cexEmptyName : Record :=
  { name := some ""
    entity := some { id := 1, name := some "X", type := some "character" } }

/-- Witness records for the identity-map theorem: one record without an
envelope (skipped) and one enveloped record. -/
def cexNoEnv : Record :=
  { id := some 7, name := some "Floating" }

/-- The enveloped witness record, entity id 5. -/
def cexBob : Record :=
  { id := some 4, name := some "Bob"
    entity := some { id := 5, type := some "character", type_id := some 1 } }

/-- Witness record list for the identity-map theorem. -/
def cexMapEntries : List Record :=
  [cexNoEnv, cexBob]

/-- A self-referential location record: its effective id is 1 and its
resolved parent field is also 1. -/
def cexSelfLoc : Record :=
  { id := some 1, location_id := some 1
    entity := some { id := 10, type := some "location" } }

/-- Parent record of the tree witnesses: effective id 1, no parent. -/
def cexTreeParent : Record :=
  { id := some 1, name := some "P"
    entity := some { id := 10, type := some "quest" } }

/-- Child record of the tree witnesses: effective id 2, parent 1 through
the quest_id field. -/
def cexTreeChild : Record :=
  { id := some 2, name := some "C", quest_id := some 1
    entity := some { id := 20, type := some "quest" } }

/-- Record list of the character-index witness: a character with
type-local id 10 and entity id 100, and a non-character record. -/
def cexIndexEntries : List Record :=
  [{ id := some 10, entity := some { id := 100, type_id := some 1 } },
   { id := some 20, entity := some { id := 200, type_id := some 2 } }]

/-- A location record carrying an envelope but no top-level id key: the
direct by-id indexing of the render pass raises KeyError on it. -/
def cexNoIdLoc : Record :=
  { name := some "Nowhere"
    entity := some { id := 9, type := some "location", type_id := some 3 } }

/-- The entity collection holding only the id-less location: well-typed
input on which the render pass raises. -/
def cexNoIdEntities : Entities :=
  { locations := [(9, cexNoIdLoc)] }

/-- The end-to-end claim's literal location record: exactly the written
keys, so no top-level id. -/
def cexTownLiteral : Record :=
  { name := some "Town"
    entity := some { id := 1, type := some "location", type_id := some 3 } }

/-- The end-to-end claim's literal character record: exactly the written
keys, so no top-level id. -/
def cexAliceLiteral : Record :=
  { name := some "Alice", location_id := some 1
    entity := some { id := 2, type := some "character", type_id := some 1 } }

/-- The end-to-end claim's literal entity collection. -/
def cexScenarioLiteral : Entities :=
  { locations := [(1, cexTownLiteral)], characters := [cexAliceLiteral]
    entity_map := [(1, ⟨"Town", "location"⟩)] }

/-- Success predicate of a raised-or-returned computation: some value was
returned. -/
def exOk {α : Type} (e : Except String α) : Prop :=
  ∃ a, e = Except.ok a

/-- The identity-map pair contributed by one record: for an enveloped
record, its envelope id mapped to the effective name (truthy top-level
name, else envelope name, else Unknown) and envelope type (else
Unknown); nothing for a record without an envelope. -/
def emPair (entry : Record) : Option (Nat × EntityInfo) :=
  entry.entity.map (fun e =>
    (e.id, ⟨pyOr entry.name (e.name.getD "Unknown"), e.type.getD "Unknown"⟩))

/-! # Theorems

Helper lemmas first, then one theorem per claim (with its witness or
counterexample where required). -/

/-! ## Lemmas about the mention scanner -/

theorem parseMentionTok_length {cs w d rest : List Char}
    (h : parseMentionTok cs = some (w, d, rest)) : rest.length < cs.length := by
  unfold parseMentionTok at h
  split at h
  · simp at h
  · split at h
    case _ r2 heq =>
      split at h
      · simp at h
      · split at h
        case _ rest2 heq2 =>
          have hsuf1 := (List.dropWhile_suffix (l := cs) isWordChar).length_le
          rw [heq] at hsuf1
          have hsuf2 := (List.dropWhile_suffix (l := r2) Char.isDigit).length_le
          rw [heq2] at hsuf2
          simp only [List.length_cons] at hsuf1 hsuf2
          simp only [Option.some.injEq, Prod.mk.injEq] at h
          obtain ⟨-, -, hr⟩ := h
          subst hr
          omega
        · simp at h
    · simp at h

theorem scanMentionsF_congr (entity_map : List (Nat × EntityInfo)) :
    ∀ (n f1 f2 : Nat) (l : List Char), l.length ≤ n → l.length ≤ f1 → l.length ≤ f2 →
      scanMentionsF entity_map f1 l = scanMentionsF entity_map f2 l := by
  intro n
  induction n with
  | zero =>
    intro f1 f2 l hn _ _
    have : l = [] := List.length_eq_zero.mp (Nat.le_zero.mp hn)
    subst this
    cases f1 <;> cases f2 <;> rfl
  | succ n ih =>
    intro f1 f2 l hn h1 h2
    cases l with
    | nil => cases f1 <;> cases f2 <;> rfl
    | cons c cs =>
      match f1, f2 with
      | 0, _ => simp at h1
      | _ + 1, 0 => simp at h2
      | a + 1, b + 1 =>
        simp only [List.length_cons, Nat.add_le_add_iff_right] at hn h1 h2
        simp only [scanMentionsF]
        by_cases hc : c = '['
        · rw [if_pos hc, if_pos hc]
          cases hp : parseMentionTok cs with
          | none =>
            simp only [hp]
            exact congrArg _ (ih a b cs hn h1 h2)
          | some t =>
            obtain ⟨w, d, rest⟩ := t
            simp only [hp]
            have hr := parseMentionTok_length hp
            exact congrArg _ (ih a b rest (by omega) (by omega) (by omega))
        · rw [if_neg hc, if_neg hc]
          exact congrArg _ (ih a b cs hn h1 h2)

theorem takeWhile_all_append {p : Char → Bool} :
    ∀ (w : List Char), (∀ c ∈ w, p c) → ∀ (x : Char), p x = false → ∀ (t : List Char),
      (w ++ x :: t).takeWhile p = w ∧ (w ++ x :: t).dropWhile p = x :: t := by
  intro w
  induction w with
  | nil =>
    intro _ x hx t
    constructor <;> simp [List.takeWhile_cons, List.dropWhile_cons, hx]
  | cons a w ih =>
    intro hw x hx t
    have ha : p a = true := hw a (by simp)
    have h2 := ih (fun c hc => hw c (by simp [hc])) x hx t
    constructor <;> simp [List.takeWhile_cons, List.dropWhile_cons, ha, hx, h2.1, h2.2]

theorem scanMentions_cons_raw (entity_map : List (Nat × EntityInfo)) (c : Char)
    (cs : List Char) (h : ¬(c = '[')) :
    scanMentions entity_map (c :: cs) = c :: scanMentions entity_map cs := by
  unfold scanMentions
  simp only [List.length_cons, scanMentionsF, if_neg h]

theorem scanMentions_cons_tok (entity_map : List (Nat × EntityInfo))
    (w d rest : List Char) (hw : w ≠ []) (hw2 : ∀ c ∈ w, isWordChar c)
    (hd : d ≠ []) (hd2 : ∀ c ∈ d, Char.isDigit c) :
    scanMentions entity_map ('[' :: (w ++ ':' :: (d ++ ']' :: rest))) =
      mentionReplacement entity_map d ++ scanMentions entity_map rest := by
  have hw' := takeWhile_all_append w hw2 ':' (by decide) (d ++ ']' :: rest)
  have hd' := takeWhile_all_append d hd2 ']' (by decide) rest
  have hw0 : w.isEmpty = false := by cases w with | nil => exact absurd rfl hw | cons _ _ => rfl
  have hd0 : d.isEmpty = false := by cases d with | nil => exact absurd rfl hd | cons _ _ => rfl
  have hp : parseMentionTok (w ++ ':' :: (d ++ ']' :: rest)) = some (w, d, rest) := by
    unfold parseMentionTok
    rw [hw'.1, hw'.2]
    simp only [hw0, Bool.false_eq_true, if_false]
    rw [hd'.1, hd'.2]
    simp [hd0]
  unfold scanMentions
  simp only [List.length_cons, scanMentionsF, eq_self_iff_true, if_true, hp]
  refine congrArg _ ?_
  have hr := parseMentionTok_length hp
  exact scanMentionsF_congr entity_map (w ++ ':' :: (d ++ ']' :: rest)).length _ _ rest
    (by omega) (by omega) (by omega)

/-! ## C9 and C3 -/

/-- C9: the anchor function satisfies the three specified examples
exactly: diacritics fold to base Latin letters, whitespace runs collapse
to a single hyphen, remaining non-word non-hyphen characters are removed,
and empty input maps to empty output. -/
theorem c9_create_anchor_label_examples :
    create_anchor_label (some "Hello World!") = "hello-world" ∧
    create_anchor_label (some "Árvíztűrő tükörfúrógép") = "arvizturo-tukorfurogep" ∧
    create_anchor_label (some "") = "" := by decide

/-- C3: for every identity map and every text presented as a well-formed
segment sequence (each opening square bracket opening a mention token of
word and digit groups), replace_mentions rewrites each token — to the
link made of the mapped entry's name and generated anchor when the
numeral is a key of the map, to the bold Entity placeholder otherwise —
and leaves every other character unchanged; being a total function, it
raises no exception in either case. -/
theorem c3_replace_mentions_rewrites_tokens (entity_map : List (Nat × EntityInfo))
    (segs : List MentionSeg) (h : ∀ s ∈ segs, segWF s = true) :
    replace_mentions (String.mk (flatSegs segs)) entity_map =
      String.mk (specRenderSegs entity_map segs) := by
  unfold replace_mentions
  show String.mk (scanMentions entity_map (flatSegs segs)) = _
  have main : scanMentions entity_map (flatSegs segs) = specRenderSegs entity_map segs := by
    induction segs with
    | nil => rfl
    | cons s t ih =>
      have hs := h s (by simp)
      have ht : ∀ x ∈ t, segWF x = true := fun x hx => h x (by simp [hx])
      cases s with
      | raw c =>
        have hc : ¬(c = '[') := by simpa [segWF] using hs
        show scanMentions entity_map (c :: flatSegs t) = _
        rw [scanMentions_cons_raw entity_map c (flatSegs t) hc, ih ht]
        rfl
      | tok w d =>
        simp only [segWF, Bool.and_eq_true, Bool.not_eq_true'] at hs
        obtain ⟨⟨⟨hw0, hw2⟩, hd0⟩, hd2⟩ := hs
        have hw : w ≠ [] := by cases w with | nil => simp at hw0 | cons _ _ => simp
        have hd : d ≠ [] := by cases d with | nil => simp at hd0 | cons _ _ => simp
        show scanMentions entity_map ('[' :: (w ++ ':' :: (d ++ ']' :: flatSegs t))) = _
        rw [scanMentions_cons_tok entity_map w d (flatSegs t) hw
          (List.all_eq_true.mp hw2) hd (List.all_eq_true.mp hd2), ih ht]
        rfl
  rw [main]

/-- Witness for C3 at a concrete text holding a mapped token, a raw
character and an unmapped token. -/
theorem c3_witness :
    (∀ s ∈ cexSegs, segWF s = true) ∧
    replace_mentions (String.mk (flatSegs cexSegs)) cexSegMap =
      String.mk (specRenderSegs cexSegMap cexSegs) ∧
    String.mk (specRenderSegs cexSegMap cexSegs) = "[Ann](#ann) **Entity_9**" :=
  ⟨by decide, c3_replace_mentions_rewrites_tokens cexSegMap cexSegs (by decide), by decide⟩

/-! ## Lemmas about dict insertion and lookup -/

theorem dinsert_of_not_mem {κ α : Type} [DecidableEq κ] {k : κ} {v : α} :
    ∀ {m : List (κ × α)}, ¬(k ∈ m.map Prod.fst) → dinsert k v m = m ++ [(k, v)] := by
  intro m
  induction m with
  | nil => intro _; rfl
  | cons p t ih =>
    intro h
    obtain ⟨k0, v0⟩ := p
    simp only [List.map_cons, List.mem_cons] at h
    push_neg at h
    simp only [dinsert, if_neg (fun he : k0 = k => h.1 he.symm), List.cons_append,
      List.cons.injEq, true_and]
    exact ih h.2

theorem mem_dinsert {κ α : Type} [DecidableEq κ] {k : κ} {v : α} {p : κ × α} :
    ∀ {m : List (κ × α)}, p ∈ dinsert k v m → p = (k, v) ∨ p ∈ m := by
  intro m
  induction m with
  | nil => intro h; simpa [dinsert] using h
  | cons q t ih =>
    intro h
    obtain ⟨k0, v0⟩ := q
    by_cases he : k0 = k
    · simp only [dinsert, if_pos he, List.mem_cons] at h
      rcases h with h | h
      · exact Or.inl h
      · exact Or.inr (List.mem_cons_of_mem _ h)
    · simp only [dinsert, if_neg he, List.mem_cons] at h
      rcases h with h | h
      · exact Or.inr (List.mem_cons.mpr (Or.inl h))
      · rcases ih h with h | h
        · exact Or.inl h
        · exact Or.inr (List.mem_cons_of_mem _ h)

theorem mem_keys_dinsert {κ α : Type} [DecidableEq κ] {x k : κ} {v : α} :
    ∀ {m : List (κ × α)},
      (x ∈ (dinsert k v m).map Prod.fst ↔ x = k ∨ x ∈ m.map Prod.fst) := by
  intro m
  induction m with
  | nil => simp [dinsert]
  | cons q t ih =>
    obtain ⟨k0, v0⟩ := q
    by_cases he : k0 = k
    · rw [he]
      have hstep : dinsert k v ((k, v0) :: t) = (k, v) :: t := by simp [dinsert]
      rw [hstep]
      simp only [List.map_cons, List.mem_cons]
      tauto
    · simp only [dinsert, if_neg he, List.map_cons, List.mem_cons, ih]
      tauto

theorem lookup_isSome_iff_mem_keys {κ α : Type} [BEq κ] [LawfulBEq κ] {k : κ} :
    ∀ {m : List (κ × α)}, ((m.lookup k).isSome = true ↔ k ∈ m.map Prod.fst) := by
  intro m
  induction m with
  | nil => simp [List.lookup]
  | cons q t ih =>
    obtain ⟨k0, v0⟩ := q
    by_cases he : k == k0
    · simp [List.lookup, he, eq_of_beq he]
    · simp only [List.lookup, he, List.map_cons, List.mem_cons, ih, Bool.cond_false]
      constructor
      · exact Or.inr
      · rintro (rfl | h)
        · simp at he
        · exact h

theorem lookup_eq_of_mem_of_nodup {κ α : Type} [BEq κ] [LawfulBEq κ] {k : κ} {v : α} :
    ∀ {m : List (κ × α)}, (m.map Prod.fst).Nodup → (k, v) ∈ m → m.lookup k = some v := by
  intro m
  induction m with
  | nil => intro _ h; simp at h
  | cons q t ih =>
    intro hnd h
    obtain ⟨k0, v0⟩ := q
    simp only [List.map_cons, List.nodup_cons] at hnd
    rcases List.mem_cons.mp h with heq | hmem
    · injection heq with h1 h2
      subst h1
      subst h2
      simp [List.lookup_cons]
    · have hk : (k == k0) = false := by
        apply beq_false_of_ne
        intro he
        subst he
        exact hnd.1 (List.mem_map.mpr ⟨(k, v), hmem, rfl⟩)
      simp only [List.lookup_cons, hk, Bool.cond_false]
      exact ih hnd.2 hmem

theorem lookup_mem {κ α : Type} [BEq κ] [LawfulBEq κ] {k : κ} {v : α} :
    ∀ {m : List (κ × α)}, m.lookup k = some v → (k, v) ∈ m := by
  intro m
  induction m with
  | nil => intro h; simp [List.lookup] at h
  | cons q t ih =>
    intro h
    obtain ⟨k0, v0⟩ := q
    by_cases he : k == k0
    · simp only [List.lookup, he, Bool.cond_true, Option.some.injEq] at h
      subst h
      exact List.mem_cons.mpr (Or.inl (by rw [eq_of_beq he]))
    · simp only [List.lookup, he, Bool.cond_false] at h
      exact List.mem_cons_of_mem _ (ih h)

theorem foldl_dinsert_filterMap {κ α β : Type} [DecidableEq κ] (f : β → Option (κ × α))
    (step : List (κ × α) → β → List (κ × α))
    (hstep : ∀ m b, step m b =
      match f b with | some kv => dinsert kv.1 kv.2 m | none => m) :
    ∀ (l : List β) (acc : List (κ × α)),
      ((acc ++ l.filterMap f).map Prod.fst).Nodup →
      l.foldl step acc = acc ++ l.filterMap f := by
  intro l
  induction l with
  | nil => intro acc _; simp
  | cons b t ih =>
    intro acc hnd
    cases hf : f b with
    | none =>
      rw [List.filterMap_cons_none hf] at hnd ⊢
      simp only [List.foldl_cons, hstep acc b, hf]
      exact ih acc hnd
    | some kv =>
      obtain ⟨k, v⟩ := kv
      rw [List.filterMap_cons_some hf] at hnd ⊢
      have hnd' : (((acc ++ [(k, v)]) ++ t.filterMap f).map Prod.fst).Nodup := by
        simpa using hnd
      have hknot : ¬(k ∈ acc.map Prod.fst) := by
        have h0 : ((acc.map Prod.fst) ++ (k :: (t.filterMap f).map Prod.fst)).Nodup := by
          simpa using hnd
        obtain ⟨-, -, hdisj⟩ := List.nodup_append.mp h0
        exact fun hk => hdisj hk (List.mem_cons_self _ _)
      simp only [List.foldl_cons, hstep acc b, hf]
      rw [dinsert_of_not_mem hknot, ih (acc ++ [(k, v)]) hnd']
      simp

/-! ## C4: the identity map -/

/-- Counterexample for C4 as stated: the claim says the stored name is
the record's top-level name whenever that field is present, but for a
record whose top-level name is present and empty the code's truthiness
fallback stores the envelope name instead. -/
theorem c4_counterexample :
    cexEmptyName.name = some "" ∧
    build_entity_map [cexEmptyName] = [(1, ⟨"X", "character"⟩)] := by decide

theorem build_entity_map_eq (entries : List Record)
    (hnd : ((entries.filterMap emPair).map Prod.fst).Nodup) :
    build_entity_map entries = entries.filterMap emPair := by
  unfold build_entity_map
  simpa using foldl_dinsert_filterMap emPair _
    (fun m r => by cases hre : r.entity <;> simp [emPair, hre])
    entries [] (by simpa using hnd)

theorem emPair_keys (entries : List Record) :
    (entries.filterMap emPair).map Prod.fst =
      entries.filterMap (fun r => r.entity.map Envelope.id) := by
  rw [List.map_filterMap]
  have : (fun a => (emPair a).map Prod.fst) =
      (fun r : Record => r.entity.map Envelope.id) := by
    funext a
    cases h : a.entity <;> simp [emPair, h]
  rw [this]

/-- C4, amended: for every record list whose enveloped records carry
pairwise distinct envelope ids, build_entity_map produces exactly one
entry per record possessing an envelope, keyed by the envelope id in
record order, and the entry stored for an enveloped record holds the name
given by the truthiness fallback (top-level name if present and
non-empty, else envelope name, else Unknown) and the envelope type (else
Unknown); records without an envelope are silently skipped. -/
theorem c4_build_entity_map_amended (entries : List Record)
    (hnd : (entries.filterMap (fun r => r.entity.map Envelope.id)).Nodup) :
    (build_entity_map entries).map Prod.fst =
      entries.filterMap (fun r => r.entity.map Envelope.id) ∧
    ∀ r ∈ entries, ∀ e, r.entity = some e →
      (build_entity_map entries).lookup e.id =
        some ⟨pyOr r.name (e.name.getD "Unknown"), e.type.getD "Unknown"⟩ := by
  have hnd' : ((entries.filterMap emPair).map Prod.fst).Nodup := by
    rw [emPair_keys]; exact hnd
  have heq := build_entity_map_eq entries hnd'
  constructor
  · rw [heq, emPair_keys]
  · intro r hr e he
    rw [heq]
    refine lookup_eq_of_mem_of_nodup hnd' ?_
    exact List.mem_filterMap.mpr ⟨r, hr, by simp [emPair, he]⟩

/-- Witness for C4 amended at a record list with one envelope-free record
and one enveloped record. -/
theorem c4_witness :
    (cexMapEntries.filterMap (fun r => r.entity.map Envelope.id)).Nodup ∧
    (build_entity_map cexMapEntries).map Prod.fst = [5] ∧
    (build_entity_map cexMapEntries).lookup 5 = some ⟨"Bob", "character"⟩ := by
  refine ⟨by decide, ?_, ?_⟩
  · rw [(c4_build_entity_map_amended cexMapEntries (by decide)).1]
    decide
  · have h := (c4_build_entity_map_amended cexMapEntries (by decide)).2 cexBob (by decide)
      { id := 5, type := some "character", type_id := some 1 } rfl
    rw [h]
    decide

/-! ## C10: character index values are identity-map keys -/

theorem bem_mem_keys_aux (x : Nat) :
    ∀ (entries : List Record) (acc : List (Nat × EntityInfo)),
      (x ∈ acc.map Prod.fst ∨ ∃ r ∈ entries, ∃ e, r.entity = some e ∧ e.id = x) →
      x ∈ (entries.foldl (fun m entry =>
        match entry.entity with
        | some e =>
          dinsert e.id ⟨pyOr entry.name (e.name.getD "Unknown"), e.type.getD "Unknown"⟩ m
        | none => m) acc).map Prod.fst := by
  intro entries
  induction entries with
  | nil =>
    intro acc h
    simp only [List.foldl_nil]
    rcases h with h | ⟨r, hr, _⟩
    · exact h
    · simp at hr
  | cons a t ih =>
    intro acc h
    simp only [List.foldl_cons]
    cases ha : a.entity with
    | none =>
      simp only [ha]
      apply ih
      rcases h with h | ⟨r, hr, e, hre, hid⟩
      · exact Or.inl h
      · rcases List.mem_cons.mp hr with rfl | hrt
        · rw [ha] at hre; exact absurd hre (by simp)
        · exact Or.inr ⟨r, hrt, e, hre, hid⟩
    | some e0 =>
      simp only [ha]
      apply ih
      rcases h with h | ⟨r, hr, e, hre, hid⟩
      · exact Or.inl (mem_keys_dinsert.mpr (Or.inr h))
      · rcases List.mem_cons.mp hr with rfl | hrt
        · rw [ha] at hre
          injection hre with hre
          subst hre
          exact Or.inl (mem_keys_dinsert.mpr (Or.inl hid.symm))
        · exact Or.inr ⟨r, hrt, e, hre, hid⟩

theorem bem_mem_keys (entries : List Record) (r : Record) (e : Envelope)
    (hr : r ∈ entries) (he : r.entity = some e) :
    e.id ∈ (build_entity_map entries).map Prod.fst := by
  unfold build_entity_map
  exact bem_mem_keys_aux e.id entries [] (Or.inr ⟨r, hr, e, he, rfl⟩)

theorem char_index_pairs_aux :
    ∀ (entries : List Record) (acc res : List (Nat × Nat)),
      (entries.foldlM (fun m entry =>
        match entry.entity with
        | some e =>
          if e.type_id = some 1 then
            match entry.id with
            | some i => some (dinsert i e.id m)
            | none => none
          else some m
        | none => some m) acc = some res) →
      ∀ p ∈ res, p ∈ acc ∨ ∃ r ∈ entries, ∃ e, r.entity = some e ∧ e.id = p.2 := by
  intro entries
  induction entries with
  | nil =>
    intro acc res h p hp
    simp only [List.foldlM_nil, Option.pure_def, Option.some.injEq] at h
    subst h
    exact Or.inl hp
  | cons a t ih =>
    intro acc res h p hp
    rw [List.foldlM_cons] at h
    cases ha : a.entity with
    | none =>
      simp only [ha] at h
      simp only [Option.bind_eq_bind, Option.some_bind] at h
      rcases ih acc res h p hp with hin | ⟨r, hrt, e, hre, hb⟩
      · exact Or.inl hin
      · exact Or.inr ⟨r, List.mem_cons_of_mem _ hrt, e, hre, hb⟩
    | some e0 =>
      simp only [ha] at h
      by_cases ht : e0.type_id = some 1
      · rw [if_pos ht] at h
        cases hid : a.id with
        | none =>
          simp only [hid] at h
          simp at h
        | some i =>
          simp only [hid] at h
          simp only [Option.bind_eq_bind, Option.some_bind] at h
          rcases ih _ res h p hp with hin | ⟨r, hrt, e, hre, hb⟩
          · rcases mem_dinsert hin with rfl | hacc
            · exact Or.inr ⟨a, List.mem_cons_self _ _, e0, ha, rfl⟩
            · exact Or.inl hacc
          · exact Or.inr ⟨r, List.mem_cons_of_mem _ hrt, e, hre, hb⟩
      · rw [if_neg ht] at h
        simp only [Option.bind_eq_bind, Option.some_bind] at h
        rcases ih acc res h p hp with hin | ⟨r, hrt, e, hre, hb⟩
        · exact Or.inl hin
        · exact Or.inr ⟨r, List.mem_cons_of_mem _ hrt, e, hre, hb⟩

/-- C10: every value of the character-to-entity map built by
build_character_id_to_entity_id over a record list is a key of the
identity map built by build_entity_map over the same list: a member
reference resolved through the character index always finds an entry in
the identity map. -/
theorem c10_character_index_values_are_identity_keys (entries : List Record)
    (m : List (Nat × Nat)) (h : build_character_id_to_entity_id entries = some m) :
    ∀ cid eid, (cid, eid) ∈ m → ((build_entity_map entries).lookup eid).isSome = true := by
  intro cid eid hmem
  unfold build_character_id_to_entity_id at h
  rcases char_index_pairs_aux entries [] m h (cid, eid) hmem with habs | ⟨r, hr, e, hre, hb⟩
  · simp at habs
  · rw [lookup_isSome_iff_mem_keys]
    exact (show e.id = eid from hb) ▸ bem_mem_keys entries r e hr hre

/-- Witness for C10 at a record list with one character and one
non-character record. -/
theorem c10_witness :
    build_character_id_to_entity_id cexIndexEntries = some [(10, 100)] ∧
    ((build_entity_map cexIndexEntries).lookup 100).isSome = true :=
  ⟨by decide,
   c10_character_index_values_are_identity_keys cexIndexEntries [(10, 100)] (by decide)
     10 100 (by decide)⟩

/-! ## Lemmas about the generic entity tree -/

theorem filterMap_some_eq_map {α β : Type} (g : α → β) :
    ∀ (l : List α), l.filterMap (fun a => some (g a)) = l.map g := by
  intro l
  induction l with
  | nil => rfl
  | cons a t ih => simp [List.filterMap_cons, ih]

theorem tree_nodes_eq (bucket : List Record) (hnd : (bucket.map treeNodeId).Nodup) :
    tree_nodes bucket = bucket.map (fun r => (treeNodeId r, r)) := by
  unfold tree_nodes
  have hcomp : (Prod.fst ∘ fun r : Record => (treeNodeId r, r)) = treeNodeId := rfl
  have h := foldl_dinsert_filterMap (fun r : Record => some (treeNodeId r, r))
    (fun m r => dinsert (treeNodeId r) r m) (fun _ _ => rfl) bucket []
    (by
      rw [filterMap_some_eq_map]
      simpa [List.map_map, hcomp] using hnd)
  rw [h, filterMap_some_eq_map]
  simp

theorem treeValues_eq (bucket : List Record) (hnd : (bucket.map treeNodeId).Nodup) :
    (tree_nodes bucket).map Prod.snd = bucket := by
  rw [tree_nodes_eq bucket hnd, List.map_map]
  have hcomp : (Prod.snd ∘ fun r : Record => (treeNodeId r, r)) = id := rfl
  rw [hcomp, List.map_id]

theorem treeKeys_eq (bucket : List Record) (hnd : (bucket.map treeNodeId).Nodup) :
    (tree_nodes bucket).map Prod.fst = bucket.map treeNodeId := by
  rw [tree_nodes_eq bucket hnd, List.map_map]
  rfl

theorem bool_eq_of_iff {x y : Bool} (h : x = true ↔ y = true) : x = y := by
  cases x <;> cases y <;> simp_all

theorem treeParentResolved_congr (b b' : List Record)
    (hk : ∀ p : Nat,
      ((tree_nodes b).lookup (some p)).isSome = ((tree_nodes b').lookup (some p)).isSome) :
    ∀ r, treeParentResolved b r = treeParentResolved b' r := by
  intro r
  unfold treeParentResolved
  cases treeParentId r with
  | none => rfl
  | some p =>
    show (if (decide (p ≠ 0) && ((tree_nodes b).lookup (some p)).isSome) = true
        then some p else none) =
      (if (decide (p ≠ 0) && ((tree_nodes b').lookup (some p)).isSome) = true
        then some p else none)
    rw [hk p]

/-! ## C5: unresolved parents become roots, self-reference does not -/

/-- Counterexample for C5 as stated: a record whose resolved parent id is
its own id does not become a root — build_entity_tree attaches it as its
own child, so the returned forest has no roots at all and the record is
dropped from it. -/
theorem c5_counterexample :
    cexSelfLoc ∈ [cexSelfLoc] ∧
    build_entity_tree_roots [cexSelfLoc] = [] ∧
    build_entity_tree_children [cexSelfLoc] (some 1) = [cexSelfLoc] := by decide

/-- C5, amended: for every type bucket with pairwise distinct effective
ids, a record whose parent id does not resolve (missing, zero, or absent
from the bucket's node keys) appears exactly once among the roots of
build_entity_tree's forest and in no children list — never dropped, never
an error — while a record whose parent id resolves to key p (including a
self-referential record, for which p is its own key) appears exactly once
in the children list of the node keyed p, is not a root, and is in no
other children list. -/
theorem c5_build_entity_tree_placement (bucket : List Record)
    (hnd : (bucket.map treeNodeId).Nodup) (r : Record) (hr : r ∈ bucket) :
    (treeParentResolved bucket r = none →
      (build_entity_tree_roots bucket).count r = 1 ∧
      ∀ k, ¬(r ∈ build_entity_tree_children bucket k)) ∧
    (∀ p, treeParentResolved bucket r = some p →
      (build_entity_tree_children bucket (some p)).count r = 1 ∧
      ¬(r ∈ build_entity_tree_roots bucket) ∧
      ∀ k, k ≠ some p → ¬(r ∈ build_entity_tree_children bucket k)) := by
  have hvals := treeValues_eq bucket hnd
  have hbnd : bucket.Nodup := hnd.of_map
  have hcount : bucket.count r = 1 := List.count_eq_one_of_mem hbnd hr
  unfold build_entity_tree_roots build_entity_tree_children
  rw [hvals]
  constructor
  · intro hres
    constructor
    · rw [List.count_filter (by simp [hres])]
      exact hcount
    · intro k hk
      have := (List.mem_filter.mp hk).2
      simp [hres] at this
  · intro p hres
    refine ⟨?_, ?_, ?_⟩
    · rw [List.count_filter (by simp [hres])]
      exact hcount
    · intro hk
      have := (List.mem_filter.mp hk).2
      simp [hres] at this
    · intro k hkne hk
      have := (List.mem_filter.mp hk).2
      rw [hres] at this
      simp only [beq_iff_eq] at this
      exact hkne this

/-- Witness for C5 amended at a two-record bucket: the child's parent
resolves to the parent's key, the parent is an exactly-once root. -/
theorem c5_witness :
    ([cexTreeParent, cexTreeChild].map treeNodeId).Nodup ∧
    cexTreeParent ∈ [cexTreeParent, cexTreeChild] ∧
    treeParentResolved [cexTreeParent, cexTreeChild] cexTreeParent = none ∧
    (build_entity_tree_roots [cexTreeParent, cexTreeChild]).count cexTreeParent = 1 := by
  refine ⟨by decide, by decide, by decide, ?_⟩
  exact ((c5_build_entity_tree_placement [cexTreeParent, cexTreeChild] (by decide)
    cexTreeParent (by decide)).1 (by decide)).1

/-! ## C8: the forest is invariant under bucket permutation -/

theorem tree_keys_lookup_perm (b b' : List Record) (hperm : b.Perm b')
    (hnd : (b.map treeNodeId).Nodup) (hnd' : (b'.map treeNodeId).Nodup) (p : Nat) :
    ((tree_nodes b).lookup (some p)).isSome = ((tree_nodes b').lookup (some p)).isSome := by
  apply bool_eq_of_iff
  rw [lookup_isSome_iff_mem_keys, lookup_isSome_iff_mem_keys,
    treeKeys_eq b hnd, treeKeys_eq b' hnd']
  exact (hperm.map treeNodeId).mem_iff

/-- C8: for buckets with pairwise distinct effective ids, permuting the
bucket leaves the forest of build_entity_tree isomorphic: the set of
parent/child edges (resolved parent key paired with child id) and the set
of roots are both invariant. -/
theorem c8_build_entity_tree_perm_invariant (b b' : List Record) (hperm : b.Perm b')
    (hnd : (b.map treeNodeId).Nodup) :
    (∀ e, e ∈ build_entity_tree_edges b ↔ e ∈ build_entity_tree_edges b') ∧
    (∀ r, r ∈ build_entity_tree_roots b ↔ r ∈ build_entity_tree_roots b') := by
  have hnd' : (b'.map treeNodeId).Nodup := ((hperm.map treeNodeId).nodup_iff).mp hnd
  have hres := treeParentResolved_congr b b' (tree_keys_lookup_perm b b' hperm hnd hnd')
  constructor
  · intro e
    unfold build_entity_tree_edges
    rw [treeValues_eq b hnd, treeValues_eq b' hnd']
    simp only [List.mem_filterMap]
    constructor
    · rintro ⟨a, ha, hfa⟩
      exact ⟨a, hperm.mem_iff.mp ha, by rw [← hres a]; exact hfa⟩
    · rintro ⟨a, ha, hfa⟩
      exact ⟨a, hperm.mem_iff.mpr ha, by rw [hres a]; exact hfa⟩
  · intro r
    unfold build_entity_tree_roots
    rw [treeValues_eq b hnd, treeValues_eq b' hnd']
    simp only [List.mem_filter]
    rw [hres r]
    exact and_congr_left (fun _ => hperm.mem_iff)

/-- Witness for C8 at a two-record bucket and its swap, checking the
parent-to-child edge on both sides. -/
theorem c8_witness :
    ([cexTreeParent, cexTreeChild].Perm [cexTreeChild, cexTreeParent]) ∧
    ([cexTreeParent, cexTreeChild].map treeNodeId).Nodup ∧
    ((1, some 2) ∈ build_entity_tree_edges [cexTreeParent, cexTreeChild] ↔
      (1, some 2) ∈ build_entity_tree_edges [cexTreeChild, cexTreeParent]) := by
  refine ⟨by decide, by decide, ?_⟩
  exact (c8_build_entity_tree_perm_invariant [cexTreeParent, cexTreeChild]
    [cexTreeChild, cexTreeParent] (by decide) (by decide)).1 (1, some 2)

/-! ## Lemmas about the paginator -/

theorem pagesLoop_flatten (n : Nat) :
    ∀ (ls : List String) (cur : List String), (pagesLoop n cur ls).flatten = cur ++ ls := by
  intro ls
  induction ls with
  | nil =>
    intro cur
    unfold pagesLoop
    cases hc : cur.isEmpty
    · simp [hc]
    · rw [List.isEmpty_iff] at hc
      simp [hc]
  | cons l t ih =>
    intro cur
    unfold pagesLoop
    by_cases hl : (cur ++ [l]).length = n
    · rw [if_pos hl]
      simp [ih]
    · rw [if_neg hl]
      rw [ih (cur ++ [l])]
      simp

theorem splitNLChars_no_nl :
    ∀ {l : List Char}, (∀ c ∈ l, ¬(c = '\n')) → splitNLChars l = [l] := by
  intro l
  induction l with
  | nil => intro _; rfl
  | cons c t ih =>
    intro h
    have hc : ¬(c = '\n') := h c (by simp)
    simp [splitNLChars, hc, ih (fun x hx => h x (by simp [hx]))]

theorem splitNLChars_append_nl :
    ∀ {l : List Char}, (∀ c ∈ l, ¬(c = '\n')) → ∀ (rest : List Char),
      splitNLChars (l ++ '\n' :: rest) = l :: splitNLChars rest := by
  intro l
  induction l with
  | nil =>
    intro _ rest
    show splitNLChars ('\n' :: rest) = [] :: splitNLChars rest
    simp [splitNLChars]
  | cons c t ih =>
    intro h rest
    have hc : ¬(c = '\n') := h c (by simp)
    show splitNLChars (c :: (t ++ '\n' :: rest)) = (c :: t) :: splitNLChars rest
    simp [splitNLChars, hc, ih (fun x hx => h x (by simp [hx])) rest]

theorem data_joinNL_append_nl :
    ∀ (cols : List String), (∀ s ∈ cols, ∀ c ∈ s.data, ¬(c = '\n')) → ∀ (rest : List Char),
      splitNLChars ((joinNL cols).data ++ '\n' :: rest) =
        (if cols.isEmpty then [[]] else cols.map String.data) ++ splitNLChars rest := by
  intro cols
  induction cols with
  | nil =>
    intro _ rest
    show splitNLChars ('\n' :: rest) = [[]] ++ splitNLChars rest
    simp [splitNLChars]
  | cons s t ih =>
    intro h rest
    have hs : ∀ c ∈ s.data, ¬(c = '\n') := h s (by simp)
    cases t with
    | nil =>
      show splitNLChars (s.data ++ '\n' :: rest) = [s.data] ++ splitNLChars rest
      rw [splitNLChars_append_nl hs rest]
      rfl
    | cons s2 t2 =>
      have hih := ih (fun x hx => h x (by simp [hx])) rest
      show splitNLChars ((s ++ "\n" ++ joinNL (s2 :: t2)).data ++ '\n' :: rest) = _
      rw [String.data_append, String.data_append]
      have hdn : ("\n" : String).data = ['\n'] := rfl
      have h1 : ((s.data ++ ("\n" : String).data) ++ (joinNL (s2 :: t2)).data) ++ '\n' :: rest
          = s.data ++ '\n' :: ((joinNL (s2 :: t2)).data ++ '\n' :: rest) := by
        rw [hdn]
        simp
      rw [h1, splitNLChars_append_nl hs, hih]
      simp

theorem data_joinNL_end :
    ∀ (cols : List String), (∀ s ∈ cols, ∀ c ∈ s.data, ¬(c = '\n')) →
      splitNLChars (joinNL cols).data =
        if cols.isEmpty then [[]] else cols.map String.data := by
  intro cols
  induction cols with
  | nil => intro _; rfl
  | cons s t ih =>
    intro h
    have hs : ∀ c ∈ s.data, ¬(c = '\n') := h s (by simp)
    cases t with
    | nil =>
      show splitNLChars s.data = [s.data]
      exact splitNLChars_no_nl hs
    | cons s2 t2 =>
      have hih := ih (fun x hx => h x (by simp [hx]))
      show splitNLChars (s ++ "\n" ++ joinNL (s2 :: t2)).data = _
      rw [String.data_append, String.data_append]
      have hdn : ("\n" : String).data = ['\n'] := rfl
      have h1 : (s.data ++ ("\n" : String).data) ++ (joinNL (s2 :: t2)).data
          = s.data ++ '\n' :: (joinNL (s2 :: t2)).data := by
        rw [hdn]
        simp
      rw [h1, splitNLChars_append_nl hs, hih]
      simp

theorem filter_not_dropWhile (q : String → Bool) :
    ∀ (l : List String), (l.dropWhile q).filter (fun x => !q x) = l.filter (fun x => !q x) := by
  intro l
  induction l with
  | nil => rfl
  | cons a t ih =>
    by_cases hq : q a
    · simp [List.dropWhile_cons, hq, List.filter_cons, ih]
    · simp [List.dropWhile_cons, hq, List.filter_cons]

theorem filter_dropTrailingBlank (l : List String) :
    (dropTrailingBlank l).filter (fun x => !isBlankLine x) =
      l.filter (fun x => !isBlankLine x) := by
  unfold dropTrailingBlank
  rw [List.filter_reverse, filter_not_dropWhile, List.filter_reverse, List.reverse_reverse]

theorem mem_dropTrailingBlank {x : String} {l : List String} (h : x ∈ dropTrailingBlank l) :
    x ∈ l := by
  unfold dropTrailingBlank at h
  rw [List.mem_reverse] at h
  have := (List.dropWhile_suffix (l := l.reverse) isBlankLine).sublist.subset h
  rwa [List.mem_reverse] at this

theorem map_mk_map_data (l : List String) : (l.map String.data).map String.mk = l := by
  rw [List.map_map]
  have h : (String.mk ∘ String.data) = id := rfl
  rw [h, List.map_id]

theorem page_segment_filter (n : Nat) (page : List String)
    (hno : ∀ s ∈ page, ∀ c ∈ s.data, ¬(c = '\n'))
    (hns : ∀ s ∈ page, ¬(s = "/")) :
    ((splitNL (renderPage n page)).filter (fun l => l ≠ "/")).filter
      (fun l => !isBlankLine l) = page.filter (fun l => !isBlankLine l) := by
  have hre : renderPage n page =
      joinNL (dropTrailingBlank (page.take (n / 2))) ++ "\n/\n" ++
        joinNL (dropTrailingBlank (page.drop (n / 2))) := rfl
  rw [hre]
  have hc1sub : ∀ s ∈ dropTrailingBlank (page.take (n / 2)), s ∈ page :=
    fun s hs => (List.take_subset _ _) (mem_dropTrailingBlank hs)
  have hc2sub : ∀ s ∈ dropTrailingBlank (page.drop (n / 2)), s ∈ page :=
    fun s hs => (List.drop_subset _ _) (mem_dropTrailingBlank hs)
  have hc1nl : ∀ s ∈ dropTrailingBlank (page.take (n / 2)), ∀ c ∈ s.data, ¬(c = '\n') :=
    fun s hs => hno s (hc1sub s hs)
  have hc2nl : ∀ s ∈ dropTrailingBlank (page.drop (n / 2)), ∀ c ∈ s.data, ¬(c = '\n') :=
    fun s hs => hno s (hc2sub s hs)
  set c1 := dropTrailingBlank (page.take (n / 2)) with hc1def
  set c2 := dropTrailingBlank (page.drop (n / 2)) with hc2def
  have hsplit : splitNL (joinNL c1 ++ "\n/\n" ++ joinNL c2) =
      (if c1.isEmpty then [""] else c1) ++ ["/"] ++ (if c2.isEmpty then [""] else c2) := by
    unfold splitNL
    rw [String.data_append, String.data_append]
    have hdn : ("\n/\n" : String).data = ['\n', '/', '\n'] := rfl
    rw [hdn]
    have hassoc : ((joinNL c1).data ++ ['\n', '/', '\n']) ++ (joinNL c2).data
        = (joinNL c1).data ++ '\n' :: ('/' :: '\n' :: (joinNL c2).data) := by simp
    rw [hassoc, data_joinNL_append_nl c1 hc1nl]
    have hmid : splitNLChars ('/' :: '\n' :: (joinNL c2).data)
        = ['/'] :: splitNLChars (joinNL c2).data := by
      simp [splitNLChars]
    rw [hmid, data_joinNL_end c2 hc2nl]
    cases hc1 : c1.isEmpty <;> cases hc2 : c2.isEmpty <;>
      simp [map_mk_map_data, show (String.mk ∘ String.data) = id from rfl]
  rw [hsplit]
  have hU : ∀ (x : List String), (∀ s ∈ x, ¬(s = "/")) →
      ((if x.isEmpty then [""] else x).filter (fun l => l ≠ "/")).filter
        (fun l => !isBlankLine l) = x.filter (fun l => !isBlankLine l) := by
    intro x hx
    cases x with
    | nil => decide
    | cons a t =>
      have h1 : ((a :: t).isEmpty) = false := rfl
      rw [h1]
      simp only [Bool.false_eq_true, if_false]
      have h2 : (a :: t).filter (fun l => l ≠ "/") = a :: t :=
        List.filter_eq_self.mpr (fun s hs => by simpa using hx s hs)
      rw [h2]
  simp only [List.filter_append]
  have hslash2 : (([("/" : String)]).filter (fun l => l ≠ "/")) = [] := by decide
  rw [hslash2]
  simp only [List.filter_nil, List.append_nil]
  rw [hU c1 (fun s hs => hns s (hc1sub s hs)), hU c2 (fun s hs => hns s (hc2sub s hs))]
  rw [hc1def, hc2def, filter_dropTrailingBlank, filter_dropTrailingBlank]
  rw [← List.filter_append, List.take_append_drop]

/-! ## C6: pagination round trip -/

/-- Counterexample for C6 as stated: the paginator drops whitespace-only
lines — for the three-line input a, blank, blank, recombining the emitted
segments and stripping the slash delimiter lines yields a, blank: a blank
line was lost, so the original sequence is not reproduced exactly. -/
theorem c6_counterexample :
    stripDelimiterLines (paginate_and_columnize ["a", "", ""]) = ["a", ""] ∧
    ¬(stripDelimiterLines (paginate_and_columnize ["a", "", ""]) = ["a", "", ""]) := by
  decide

/-- C6, amended: for every input whose lines contain no newline character
and are not themselves the slash delimiter, concatenating all emitted
page/column segments in order and stripping the delimiter lines
reproduces exactly the subsequence of non-blank lines — none dropped,
duplicated, split or reordered; whitespace-only lines however are not
preserved (trailing blanks of each column are removed and empty columns
contribute a spurious blank line), and pages are fixed-size line chunks
split at the half-page mark with no block-boundary detection. -/
theorem c6_paginate_roundtrip (lines : List String) (n : Nat)
    (hnl : ∀ l ∈ lines, ∀ c ∈ l.data, ¬(c = '\n'))
    (hslash : ∀ l ∈ lines, ¬(l = "/")) :
    (stripDelimiterLines (paginate_and_columnize lines n)).filter
      (fun l => !isBlankLine l) =
    lines.filter (fun l => !isBlankLine l) := by
  unfold paginate_and_columnize stripDelimiterLines
  have hmem : ∀ page ∈ pagesLoop n [] lines, ∀ s ∈ page, s ∈ lines := by
    intro page hp s hs
    have h := List.mem_flatten.mpr ⟨page, hp, hs⟩
    rw [pagesLoop_flatten n lines []] at h
    simpa using h
  have key : ∀ (ps : List (List String)), (∀ page ∈ ps, ∀ s ∈ page, s ∈ lines) →
      (((ps.map (renderPage n)).map
        (fun s => (splitNL s).filter (fun l => l ≠ "/"))).flatten).filter
          (fun l => !isBlankLine l) =
      ps.flatten.filter (fun l => !isBlankLine l) := by
    intro ps
    induction ps with
    | nil => intro _; rfl
    | cons p t ih =>
      intro hps
      simp only [List.map_cons, List.flatten_cons, List.filter_append]
      rw [page_segment_filter n p
        (fun s hs => hnl s (hps p (by simp) s hs))
        (fun s hs => hslash s (hps p (by simp) s hs))]
      rw [ih (fun page hpg s hs => hps page (by simp [hpg]) s hs)]
  rw [key (pagesLoop n [] lines) hmem, pagesLoop_flatten n lines []]
  simp

/-- Witness for C6 amended at a three-line input with a blank middle
line. -/
theorem c6_witness :
    (∀ l ∈ (["x", "", "y"] : List String), ∀ c ∈ l.data, ¬(c = '\n')) ∧
    (∀ l ∈ (["x", "", "y"] : List String), ¬(l = "/")) ∧
    (stripDelimiterLines (paginate_and_columnize ["x", "", "y"] 55)).filter
      (fun l => !isBlankLine l) =
      (["x", "", "y"] : List String).filter (fun l => !isBlankLine l) :=
  ⟨by decide, by decide, c6_paginate_roundtrip ["x", "", "y"] 55 (by decide) (by decide)⟩

/-! ## Membership lemmas for the stable sort, the list-append dict and the
privacy filter -/

theorem mem_insertByLt {α : Type} {lt : α → α → Bool} {x a : α} :
    ∀ {l : List α}, (x ∈ insertByLt lt a l ↔ x = a ∨ x ∈ l) := by
  intro l
  induction l with
  | nil => simp [insertByLt]
  | cons b t ih =>
    simp only [insertByLt]
    split
    · simp only [List.mem_cons]
    · simp only [List.mem_cons, ih]
      tauto

theorem mem_foldl_insertByLt {α : Type} {lt : α → α → Bool} {x : α} :
    ∀ (l acc : List α),
      (x ∈ l.foldl (fun acc a => insertByLt lt a acc) acc ↔ x ∈ l ∨ x ∈ acc) := by
  intro l
  induction l with
  | nil => intro acc; simp
  | cons a t ih =>
    intro acc
    simp only [List.foldl_cons, ih, mem_insertByLt, List.mem_cons]
    tauto

theorem mem_sortByLt {α : Type} {lt : α → α → Bool} {x : α} {l : List α} :
    x ∈ sortByLt lt l ↔ x ∈ l := by
  unfold sortByLt
  rw [mem_foldl_insertByLt]
  simp

theorem mem_dappend {κ α : Type} [DecidableEq κ] {k : κ} {v : α} :
    ∀ {m : List (κ × List α)} {q : κ × List α}, q ∈ dappend k v m →
      ∀ c ∈ q.2, c = v ∨ ∃ q2, q2 ∈ m ∧ c ∈ q2.2 := by
  intro m
  induction m with
  | nil =>
    intro q hq c hc
    simp only [dappend, List.mem_singleton] at hq
    subst hq
    exact Or.inl (List.mem_singleton.mp hc)
  | cons p t ih =>
    intro q hq c hc
    obtain ⟨k0, l0⟩ := p
    by_cases he : k0 = k
    · rw [show dappend k v ((k0, l0) :: t) = (k0, l0 ++ [v]) :: t from by
        simp [dappend, he]] at hq
      rcases List.mem_cons.mp hq with rfl | hmem
      · rcases List.mem_append.mp hc with h1 | h1
        · exact Or.inr ⟨(k0, l0), by simp, h1⟩
        · exact Or.inl (List.mem_singleton.mp h1)
      · exact Or.inr ⟨q, List.mem_cons_of_mem _ hmem, hc⟩
    · rw [show dappend k v ((k0, l0) :: t) = (k0, l0) :: dappend k v t from by
        simp [dappend, he]] at hq
      rcases List.mem_cons.mp hq with rfl | hmem
      · exact Or.inr ⟨(k0, l0), by simp, hc⟩
      · rcases ih hmem c hc with h1 | ⟨q2, hq2, hc2⟩
        · exact Or.inl h1
        · exact Or.inr ⟨q2, List.mem_cons_of_mem _ hq2, hc2⟩

theorem mem_privacyFilterList {ip : Bool} {l : List Record} {r : Record}
    (h : r ∈ privacyFilterList ip l) : r ∈ l := by
  unfold privacyFilterList at h
  split at h
  · exact h
  · exact List.mem_of_mem_filter h

theorem mem_privacyFilterDict {ip : Bool} {d : List (Nat × Record)} {p : Nat × Record}
    (h : p ∈ privacyFilterDict ip d) : p ∈ d := by
  unfold privacyFilterDict at h
  split at h
  · exact h
  · exact List.mem_of_mem_filter h

/-! ## Except machinery for the totality theorem -/

theorem except_bind_ok {α β : Type} (a : α) (f : α → Except String β) :
    (Except.ok a >>= f) = f a := rfl

theorem exOk_bind {α β : Type} {e : Except String α} {f : α → Except String β}
    (he : exOk e) (hf : ∀ a, e = Except.ok a → exOk (f a)) : exOk (e >>= f) := by
  obtain ⟨a, ha⟩ := he
  obtain ⟨b, hb⟩ := hf a ha
  exact ⟨b, by rw [ha, except_bind_ok, hb]⟩

theorem exOk_bind_strong {α β : Type} {e : Except String α} {f : α → Except String β}
    {P : α → Prop} (he : ∃ a, e = Except.ok a ∧ P a)
    (hf : ∀ a, P a → exOk (f a)) : exOk (e >>= f) := by
  obtain ⟨a, ha, hPa⟩ := he
  obtain ⟨b, hb⟩ := hf a hPa
  exact ⟨b, by rw [ha, except_bind_ok, hb]⟩

theorem exOk_mapM {α β : Type} {f : α → Except String β} :
    ∀ {l : List α}, (∀ a ∈ l, exOk (f a)) → exOk (l.mapM f) := by
  intro l
  induction l with
  | nil =>
    intro _
    exact ⟨[], by rw [List.mapM_nil]; rfl⟩
  | cons a t ih =>
    intro h
    rw [List.mapM_cons]
    refine exOk_bind (h a (by simp)) ?_
    intro b _
    refine exOk_bind (ih (fun x hx => h x (by simp [hx]))) ?_
    intro bs _
    exact ⟨b :: bs, rfl⟩

theorem exOk_ite {α : Type} {c : Prop} [Decidable c] {a b : Except String α}
    (ha : exOk a) (hb : exOk b) : exOk (if c then a else b) := by
  split
  · exact ha
  · exact hb

theorem foldlM_okP {α β : Type} (P : β → Prop) (step : β → α → Except String β) :
    ∀ (l : List α) (b0 : β), P b0 →
      (∀ b a, a ∈ l → P b → ∃ b2, step b a = Except.ok b2 ∧ P b2) →
      ∃ b, l.foldlM step b0 = Except.ok b ∧ P b := by
  intro l
  induction l with
  | nil =>
    intro b0 h0 _
    exact ⟨b0, by rw [List.foldlM_nil]; rfl, h0⟩
  | cons a t ih =>
    intro b0 h0 hstep
    obtain ⟨b1, hb1, hP1⟩ := hstep b0 a (by simp) h0
    obtain ⟨b, hb, hP⟩ := ih b1 hP1 (fun b x hx hPb => hstep b x (by simp [hx]) hPb)
    refine ⟨b, ?_, hP⟩
    rw [List.foldlM_cons, hb1, except_bind_ok]
    exact hb

theorem buildByIdE_okP {l : List Record}
    (h : ∀ r ∈ l, (Record.id r).isSome = true) :
    ∃ m, buildByIdE l = Except.ok m ∧ ∀ p ∈ m, p.2 ∈ l := by
  unfold buildByIdE
  refine foldlM_okP (fun (m : List (Nat × Record)) => ∀ p ∈ m, p.2 ∈ l) _ l []
    (by simp) ?_
  intro m r hr hP
  obtain ⟨i, hi⟩ := Option.isSome_iff_exists.mp (h r hr)
  refine ⟨dinsert i r m, ?_, ?_⟩
  · simp only [hi]
  · intro p hp
    rcases mem_dinsert hp with h1 | h1
    · rw [h1]
      exact hr
    · exact hP p h1

/-! ## Totality of the fallible renderers -/

theorem write_location_ok (cb : Collab) (em : List (Nat × EntityInfo))
    (lc : Nat → List Record) (cbl : List (Nat × List Record))
    (S chars : List Record)
    (hS : ∀ r ∈ S, (Record.id r).isSome = true ∧ (Record.entity r).isSome = true)
    (hlc : ∀ i r, r ∈ lc i → r ∈ S)
    (hcbl : ∀ q ∈ cbl, ∀ c ∈ q.2, c ∈ chars)
    (hchars : ∀ c ∈ chars, (Record.entity c).isSome = true) :
    ∀ (fuel depth md : Nat) (loc : Record), loc ∈ S →
      exOk (write_location cb em lc cbl fuel depth md loc) := by
  intro fuel
  induction fuel with
  | zero =>
    intro depth md loc _
    exact ⟨[], rfl⟩
  | succ f ih =>
    intro depth md loc hloc
    obtain ⟨hid, hent⟩ := hS loc hloc
    obtain ⟨e, he⟩ := Option.isSome_iff_exists.mp hent
    obtain ⟨i, hi⟩ := Option.isSome_iff_exists.mp hid
    simp only [write_location]
    by_cases hd : depth > md
    · rw [if_pos hd]
      exact ⟨[], rfl⟩
    · rw [if_neg hd]
      refine exOk_bind ⟨e, by simp [keyErr, he]⟩ ?_
      intro ent _
      refine exOk_bind (exOk_mapM ?_) ?_
      · intro c hc
        have hc2 := mem_sortByLt.mp hc
        have hcc : c ∈ chars := by
          rcases hlk : List.lookup (Envelope.id ent) cbl with _ | cs
          · rw [hlk] at hc2
            simp at hc2
          · rw [hlk] at hc2
            exact hcbl (Envelope.id ent, cs) (lookup_mem hlk) c (by simpa using hc2)
        obtain ⟨ce, hce⟩ := Option.isSome_iff_exists.mp (hchars c hcc)
        refine exOk_bind ⟨ce, by simp [keyErr, hce]⟩ ?_
        intro cEnt _
        exact ⟨_, rfl⟩
      · intro charItems _
        refine exOk_bind ⟨i, by simp [keyErr, hi]⟩ ?_
        intro locId _
        refine exOk_bind (exOk_mapM ?_) ?_
        · intro child hchild
          exact ih (depth + 1) md child (hlc locId child (mem_sortByLt.mp hchild))
        · intro childLines _
          exact ⟨_, rfl⟩

theorem write_race_ok (cb : Collab) (em : List (Nat × EntityInfo))
    (rc : Nat → List Record) (S : List Record)
    (hS : ∀ r ∈ S, (Record.id r).isSome = true)
    (hrc : ∀ i r, r ∈ rc i → r ∈ S) :
    ∀ (fuel depth md : Nat) (race : Record), race ∈ S →
      exOk (write_race cb em rc fuel depth md race) := by
  intro fuel
  induction fuel with
  | zero =>
    intro depth md race _
    exact ⟨[], rfl⟩
  | succ f ih =>
    intro depth md race hr
    obtain ⟨i, hi⟩ := Option.isSome_iff_exists.mp (hS race hr)
    simp only [write_race]
    by_cases hd : depth > md
    · rw [if_pos hd]
      exact ⟨[], rfl⟩
    · rw [if_neg hd]
      refine exOk_bind ⟨i, by simp [keyErr, hi]⟩ ?_
      intro raceId _
      refine exOk_bind (exOk_mapM ?_) ?_
      · intro child hchild
        exact ih (depth + 1) md child (hrc raceId child (mem_sortByLt.mp hchild))
      · intro childLines _
        exact ⟨_, rfl⟩

theorem write_character_block_ok (cb : Collab) (em : List (Nat × EntityInfo))
    (lbi : List (Nat × Record)) (ip ipo : Bool) {c : Record}
    (h : (Record.entity c).isSome = true) :
    exOk (write_character_block cb em lbi ip ipo c) := by
  obtain ⟨e, he⟩ := Option.isSome_iff_exists.mp h
  refine exOk_bind ⟨e, by simp [keyErr, he]⟩ ?_
  intro cEnt _
  exact ⟨_, rfl⟩

/-! ## C7: empty input and exception propagation -/

set_option maxRecDepth 200000 in
/-- Counterexample for C7 as stated: for the entirely empty entity
collection the render pass returns not an empty document but the fixed
skeleton (locations, organizations and races chapter headers plus the
generation-settings footer), and on the well-typed collection holding one
location record that lacks a top-level id key a KeyError escapes the
render pass instead of an empty or partial document. -/
theorem c7_counterexample :
    exceptEqOk (generate_worldbook collabId ({} : Entities)) emptySkeleton = true ∧
    ¬(emptySkeleton = "") ∧
    exceptIsError (generate_worldbook collabId cexNoIdEntities) = true := by
  decide

/-- C7, amended: the render pass raises no exception on any entity
collection in which every location and charlocation record carries a
top-level id, every location and character record carries an entity
envelope, and every race record carries a top-level id; the entirely
empty collection (which satisfies these vacuously) yields the fixed
chapter-skeleton document with the generation-settings footer rather
than an empty document, and a record missing one of the required keys
makes a KeyError escape. -/
theorem c7_render_pass_totality (cb : Collab) (entities : Entities) (ip ipo : Bool)
    (hlocs : ∀ p ∈ entities.locations,
      (Record.id p.2).isSome = true ∧ (Record.entity p.2).isSome = true)
    (hcls : ∀ p ∈ entities.charlocations, (Record.id p.2).isSome = true)
    (hchars : ∀ c ∈ entities.characters, (Record.entity c).isSome = true)
    (hraces : ∀ r ∈ entities.races, (Record.id r).isSome = true) :
    exOk (generate_worldbook cb entities ip ipo) := by
  have hfl : ∀ p ∈ (filteredBuckets entities ip).locations,
      (Record.id p.2).isSome = true ∧ (Record.entity p.2).isSome = true := by
    intro p hp
    refine hlocs p ?_
    simp only [filteredBuckets] at hp
    exact mem_privacyFilterDict hp
  have hfcl : ∀ p ∈ (filteredBuckets entities ip).charlocations,
      (Record.id p.2).isSome = true := by
    intro p hp
    refine hcls p ?_
    simp only [filteredBuckets] at hp
    exact mem_privacyFilterDict hp
  have hfc : ∀ c ∈ (filteredBuckets entities ip).characters,
      (Record.entity c).isSome = true := by
    intro c hc
    refine hchars c ?_
    simp only [filteredBuckets] at hc
    exact mem_privacyFilterList hc
  have hfr : ∀ r ∈ (filteredBuckets entities ip).races,
      (Record.id r).isSome = true := by
    intro r hr
    refine hraces r ?_
    simp only [filteredBuckets] at hr
    exact mem_privacyFilterList hr
  refine exOk_bind_strong (buildByIdE_okP ?_) ?_
  · intro r hr
    obtain ⟨q, hq, rfl⟩ := List.mem_map.mp hr
    exact (hfl q hq).1
  · intro lbi hlbiP
    refine exOk_bind_strong (buildByIdE_okP ?_) ?_
    · intro r hr
      obtain ⟨q, hq, rfl⟩ := List.mem_map.mp hr
      exact hfcl q hq
    · intro clbi _
      refine exOk_bind_strong (foldlM_okP
        (fun m => ∀ q ∈ m, ∀ c ∈ q.2, c ∈ (filteredBuckets entities ip).characters)
        _ _ [] (by simp) ?_) ?_
      · intro m c hc hP
        rcases hcl : Record.location_id c with _ | p
        · exact ⟨m, by simp only [hcl], hP⟩
        · by_cases hp0 : p = 0
          · refine ⟨m, ?_, hP⟩
            simp [hcl, hp0]
          · rcases hlk : List.lookup p lbi with _ | loc
            · refine ⟨m, ?_, hP⟩
              simp [hcl, hp0, hlk]
            · have hloc := hlbiP (p, loc) (lookup_mem hlk)
              obtain ⟨q, hq, hq2⟩ := List.mem_map.mp hloc
              have hentS : (Record.entity loc).isSome = true := by
                have h3 := (hfl q hq).2
                rw [hq2] at h3
                exact h3
              obtain ⟨e, he⟩ := Option.isSome_iff_exists.mp hentS
              refine ⟨dappend (Envelope.id e) c m, ?_, ?_⟩
              · simp [hcl, hp0, hlk, he]
              · intro q2 hq2m c2 hc2
                rcases mem_dappend hq2m c2 hc2 with rfl | ⟨q3, hq3, hc3⟩
                · exact hc
                · exact hP q3 hq3 c2 hc3
      · intro cbl hcblP
        refine exOk_bind (exOk_mapM ?_) ?_
        · intro loc hloc
          refine write_location_ok cb _ _ _ (List.map Prod.snd lbi)
            ((filteredBuckets entities ip).characters) ?_ ?_ hcblP hfc 12 0 10 loc ?_
          · intro r hr
            obtain ⟨q, hq, rfl⟩ := List.mem_map.mp hr
            have hq2 := hlbiP q hq
            obtain ⟨q3, hq3, hq32⟩ := List.mem_map.mp hq2
            rw [← hq32]
            exact hfl q3 hq3
          · intro i r hr
            exact List.mem_of_mem_filter hr
          · exact List.mem_of_mem_filter (mem_sortByLt.mp hloc)
        · intro locBlocks _
          refine exOk_bind (exOk_mapM ?_) ?_
          · intro c hc
            exact write_character_block_ok cb _ _ ip ipo (hfc c (mem_sortByLt.mp hc))
          · intro charBlocks _
            refine exOk_bind (exOk_mapM ?_) ?_
            · intro r hr
              refine write_race_ok cb _ _ ((filteredBuckets entities ip).races)
                hfr ?_ 12 0 10 r ?_
              · intro i x hx
                exact List.mem_of_mem_filter hx
              · exact List.mem_of_mem_filter (mem_sortByLt.mp hr)
            · intro raceBlocks _
              exact exOk_ite ⟨_, rfl⟩ ⟨_, rfl⟩

set_option maxRecDepth 200000 in
/-- Witness for C7 amended at the end-to-end scenario collection. -/
theorem c7_witness :
    (∀ p ∈ cexScenario.locations,
      (Record.id p.2).isSome = true ∧ (Record.entity p.2).isSome = true) ∧
    (∀ p ∈ cexScenario.charlocations, (Record.id p.2).isSome = true) ∧
    (∀ c ∈ cexScenario.characters, (Record.entity c).isSome = true) ∧
    (∀ r ∈ cexScenario.races, (Record.id r).isSome = true) ∧
    exOk (generate_worldbook collabId cexScenario false true) :=
  ⟨by decide, by decide, by decide, by decide,
   c7_render_pass_totality collabId cexScenario false true (by decide) (by decide)
     (by decide) (by decide)⟩

/-! ## C1: scope of the privacy filter -/

set_option maxRecDepth 200000 in
/-- Counterexample for C1 as stated: with include_private false, the quest
bucket passes the privacy filter untouched and the identity and character
maps are built over the unfiltered record list, so a private quest is
rendered as its own section block and a filtered-out private character
still surfaces as a member link of a public family. -/
theorem c1_counterexample :
    is_private_obj cexPrivQuest = true ∧
    is_private_obj cexPrivChar = true ∧
    exceptOkContains (generate_worldbook collabId cexPrivEntities)
      "## Secret Quest ((++secret-quest))" = true ∧
    exceptOkContains (generate_worldbook collabId cexPrivEntities)
      "- [Mysterio](#mysterio)" = true := by
  decide

/-- C1, amended: the privacy guarantee is confined to the nine filtered
collections — with include_private false, every record surviving in the
locations, characters, charlocations, organizations, events, items,
families, notes or races bucket has a falsy privacy flag on both the
record and its envelope; the campaign and the journal, quest, tag, map,
calendar and timeline buckets are not filtered, and cross-references
resolved through the separately built identity and character maps may
still name private records. -/
theorem c1_privacy_filter_scope (entities : Entities) (r : Record)
    (h : r ∈ (filteredBuckets entities false).characters ∨
         r ∈ List.map Prod.snd (filteredBuckets entities false).locations ∨
         r ∈ List.map Prod.snd (filteredBuckets entities false).charlocations ∨
         r ∈ (filteredBuckets entities false).organizations ∨
         r ∈ (filteredBuckets entities false).events ∨
         r ∈ (filteredBuckets entities false).items ∨
         r ∈ (filteredBuckets entities false).families ∨
         r ∈ (filteredBuckets entities false).notes ∨
         r ∈ (filteredBuckets entities false).races) :
    is_private_obj r = false := by
  have hlist : ∀ {l : List Record}, r ∈ privacyFilterList false l →
      is_private_obj r = false := by
    intro l hm
    simp only [privacyFilterList, Bool.false_eq_true, if_false] at hm
    have h2 := List.of_mem_filter hm
    simpa using h2
  have hdict : ∀ {d : List (Nat × Record)},
      r ∈ List.map Prod.snd (privacyFilterDict false d) →
      is_private_obj r = false := by
    intro d hm
    obtain ⟨p, hp, rfl⟩ := List.mem_map.mp hm
    simp only [privacyFilterDict, Bool.false_eq_true, if_false] at hp
    have h2 := List.of_mem_filter hp
    simpa using h2
  simp only [filteredBuckets] at h
  rcases h with h | h | h | h | h | h | h | h | h
  · exact hlist h
  · exact hdict h
  · exact hdict h
  · exact hlist h
  · exact hlist h
  · exact hlist h
  · exact hlist h
  · exact hlist h
  · exact hlist h

set_option maxRecDepth 200000 in
/-- Witness for C1 amended: the public family survives the families
filter and indeed carries falsy privacy flags. -/
theorem c1_witness :
    (cexFamily ∈ (filteredBuckets cexPrivEntities false).characters ∨
     cexFamily ∈ List.map Prod.snd (filteredBuckets cexPrivEntities false).locations ∨
     cexFamily ∈ List.map Prod.snd (filteredBuckets cexPrivEntities false).charlocations ∨
     cexFamily ∈ (filteredBuckets cexPrivEntities false).organizations ∨
     cexFamily ∈ (filteredBuckets cexPrivEntities false).events ∨
     cexFamily ∈ (filteredBuckets cexPrivEntities false).items ∨
     cexFamily ∈ (filteredBuckets cexPrivEntities false).families ∨
     cexFamily ∈ (filteredBuckets cexPrivEntities false).notes ∨
     cexFamily ∈ (filteredBuckets cexPrivEntities false).races) ∧
    is_private_obj cexFamily = false :=
  ⟨by decide, c1_privacy_filter_scope cexPrivEntities cexFamily (by decide)⟩

/-! ## C2: the end-to-end scenario -/

set_option maxRecDepth 200000 in
/-- C2 against the code's actual behavior: on the claim's literal records,
which carry no top-level id key, the render pass raises KeyError instead
of rendering; on the repaired scenario (Town given top-level id 1) the
locations chapter does render the Town heading with the
characters-at-this-location list linking Alice, but the
characters-without-location chapter also contains Alice, because the
chars_without_location variable aliases the full character list instead
of the characters not placed at any location. -/
theorem c2_characters_without_location_alias :
    exceptIsError (generate_worldbook collabId cexScenarioLiteral) = true ∧
    exceptOkContains (generate_worldbook collabId cexScenario)
      "## Town ((++town))" = true ∧
    exceptOkContains (generate_worldbook collabId cexScenario)
      "**characters_at_location: Town:**\n\n\n- [Alice](#alice)" = true ∧
    exceptOkContains (generate_worldbook collabId cexScenario)
      "# characters  ((+characters))\n\n## Alice ((++alice))" = true := by
  decide

end Realmpress
